import Mathlib

/-!
Verification of the Reverse Challenge System core.

A shallow embedding, in Lean 4, of the core of the Go repository
`reverse-challenge-system` (the AIBattle MVP): the HMAC-SHA256 signing
primitive (`pkg/auth/hmac.go`), the HTTP middleware chain
(`pkg/api/middleware.go`), the answer validation engine
(`pkg/validator`), the challenger callback receiver
(`internal/challenger/service.go` together with the challenger store
`pkg/db/challenger.go`), and the solver's callback sender and retry
loop (`internal/solver/service.go`, `internal/solver/worker.go`).

Modelling conventions:

* Go strings are modelled as `List Char`; all strings handled by the
  core are ASCII, so a byte of a string is `Char.toNat` of its
  character.
* Byte slices are `List Nat` with every element below 256.
* SQLite tables are modelled as Lean lists of rows; the SQL statements
  the store issues (`INSERT OR IGNORE` under a `UNIQUE` constraint,
  single-row `SELECT`, plain `INSERT`) are modelled by the
  corresponding list operations.  A genuine backend failure of a
  statement is modelled by an explicit fault flag.
* `float64` values are modelled as exact rationals (`ℚ`);
  `time.Duration` values as rational nanosecond counts.
* Wall-clock reads (`time.Now`), fresh UUIDs and the pseudo-random
  jitter source are passed in as explicit parameters.
-/

set_option maxRecDepth 10000

namespace RCS

/-- Decidable equality for `Except`, so that concrete runs of the
fallible model functions can be evaluated by `decide`. -/
instance {ε α : Type} [DecidableEq ε] [DecidableEq α] : DecidableEq (Except ε α) :=
  fun a b =>
    match a, b with
    | .ok x, .ok y => if h : x = y then isTrue (by rw [h]) else isFalse (by simp [h])
    | .error x, .error y => if h : x = y then isTrue (by rw [h]) else isFalse (by simp [h])
    | .ok _, .error _ => isFalse (by simp)
    | .error _, .ok _ => isFalse (by simp)

/-! ## SHA-256, HMAC-SHA256 and hex encoding

An executable model of the hash functions used by `pkg/auth/hmac.go`
(`crypto/sha256`, `crypto/hmac`, `encoding/hex`), over `List Nat`
bytes with explicit reduction modulo `2^32`. -/

/-- Truncate to a 32-bit word. -/
def w32 (x : Nat) : Nat := x % 4294967296

/-- Right rotation of a 32-bit word by `n`. -/
def rotr32 (n x : Nat) : Nat := w32 ((x >>> n) ||| (x <<< (32 - n)))

/-- SHA-256 `Ch(x,y,z)`. -/
def shaCh (x y z : Nat) : Nat := (x &&& y) ^^^ ((x ^^^ 4294967295) &&& z)

/-- SHA-256 `Maj(x,y,z)`. -/
def shaMaj (x y z : Nat) : Nat := (x &&& y) ^^^ (x &&& z) ^^^ (y &&& z)

/-- SHA-256 `Σ₀`. -/
def bsig0 (x : Nat) : Nat := rotr32 2 x ^^^ rotr32 13 x ^^^ rotr32 22 x

/-- SHA-256 `Σ₁`. -/
def bsig1 (x : Nat) : Nat := rotr32 6 x ^^^ rotr32 11 x ^^^ rotr32 25 x

/-- SHA-256 `σ₀`. -/
def ssig0 (x : Nat) : Nat := rotr32 7 x ^^^ rotr32 18 x ^^^ (x >>> 3)

/-- SHA-256 `σ₁`. -/
def ssig1 (x : Nat) : Nat := rotr32 17 x ^^^ rotr32 19 x ^^^ (x >>> 10)

/-- The 64 SHA-256 round constants of FIPS 180-4, written in decimal. -/
def sha256K : List Nat :=
  [1116352408, 1899447441, 3049323471, 3921009573, 961987163, 1508970993,
   2453635748, 2870763221, 3624381080, 310598401, 607225278, 1426881987,
   1925078388, 2162078206, 2614888103, 3248222580, 3835390401, 4022224774,
   264347078, 604807628, 770255983, 1249150122, 1555081692, 1996064986,
   2554220882, 2821834349, 2952996808, 3210313671, 3336571891, 3584528711,
   113926993, 338241895, 666307205, 773529912, 1294757372, 1396182291,
   1695183700, 1986661051, 2177026350, 2456956037, 2730485921, 2820302411,
   3259730800, 3345764771, 3516065817, 3600352804, 4094571909, 275423344,
   430227734, 506948616, 659060556, 883997877, 958139571, 1322822218,
   1537002063, 1747873779, 1955562222, 2024104815, 2227730452, 2361852424,
   2428436474, 2756734187, 3204031479, 3329325298]

/-- The eight SHA-256 initial hash values of FIPS 180-4, in decimal. -/
def sha256H0 : List Nat :=
  [1779033703, 3144134277, 1013904242, 2773480762,
   1359893119, 2600822924, 528734635, 1541459225]

/-- Group bytes into big-endian 32-bit words (a trailing group shorter
than 4 bytes is dropped; padding makes the length a multiple of 4). -/
def bytesToWordsBE : List Nat → List Nat
  | b0 :: b1 :: b2 :: b3 :: rest =>
      (((b0 * 256 + b1) * 256 + b2) * 256 + b3) :: bytesToWordsBE rest
  | _ => []

/-- The `n`-byte big-endian encoding of `x`. -/
def natToBytesBE (n x : Nat) : List Nat :=
  (List.range n).map (fun i => (x >>> (8 * (n - 1 - i))) &&& 255)

/-- SHA-256 message padding: `0x80`, zeros, then the 64-bit big-endian
bit length, to a multiple of 64 bytes. -/
def sha256Pad (msg : List Nat) : List Nat :=
  msg ++ [128] ++ List.replicate ((119 - msg.length % 64) % 64) 0
      ++ natToBytesBE 8 (8 * msg.length)

/-- Split a list into chunks of `n` elements (fuelled recursion). -/
def chunksAux (n : Nat) : Nat → List Nat → List (List Nat)
  | 0, _ => []
  | _, [] => []
  | fuel + 1, l => l.take n :: chunksAux n fuel (l.drop n)

/-- Split a byte list into 64-byte blocks. -/
def chunks64 (l : List Nat) : List (List Nat) := chunksAux 64 l.length l

/-- Extend the 16-word block to the 64-word message schedule by
appending `n` further words. -/
def extendW : List Nat → Nat → List Nat
  | ws, 0 => ws
  | ws, n + 1 =>
      let len := ws.length
      let t := w32 (ssig1 (ws.getD (len - 2) 0) + ws.getD (len - 7) 0 +
                    ssig0 (ws.getD (len - 15) 0) + ws.getD (len - 16) 0)
      extendW (ws ++ [t]) n

/-- One SHA-256 round on the working state `[a,b,c,d,e,f,g,h]`, where
`kw` is the sum of the round constant and the schedule word. -/
def shaRound (st : List Nat) (kw : Nat) : List Nat :=
  match st with
  | [a, b, c, d, e, f, g, h] =>
      let t1 := w32 (h + bsig1 e + shaCh e f g + kw)
      let t2 := w32 (bsig0 a + shaMaj a b c)
      [w32 (t1 + t2), a, b, c, w32 (d + t1), e, f, g]
  | other => other

/-- Compress one 64-byte block into the running hash state. -/
def sha256Compress (h : List Nat) (block : List Nat) : List Nat :=
  let ws := extendW (bytesToWordsBE block) 48
  let kws := List.zipWith (fun k w => w32 (k + w)) sha256K ws
  List.zipWith (fun x y => w32 (x + y)) h (kws.foldl shaRound h)

/-- SHA-256 of a byte list, as the 32-byte digest. -/
def sha256 (msg : List Nat) : List Nat :=
  ((chunks64 (sha256Pad msg)).foldl sha256Compress sha256H0).foldr
    (fun wd acc => natToBytesBE 4 wd ++ acc) []

/-- Lowercase hex digit for a value below 16. -/
def hexDigitChar (n : Nat) : Char :=
  if n < 10 then Char.ofNat (48 + n) else Char.ofNat (87 + n)

/-- Two lowercase hex digits of a byte. -/
def byteHexChars (b : Nat) : List Char := [hexDigitChar (b / 16), hexDigitChar (b % 16)]

/-- Lowercase hex encoding of a byte list (`encoding/hex`). -/
def bytesToHexChars (bs : List Nat) : List Char :=
  bs.foldr (fun b acc => byteHexChars b ++ acc) []

/-- HMAC-SHA256 with the standard 64-byte block size (`crypto/hmac`). -/
def hmacSha256 (key msg : List Nat) : List Nat :=
  let k0 := if 64 < key.length then sha256 key else key
  let kp := k0 ++ List.replicate (64 - k0.length) 0
  sha256 ((kp.map (fun b => b ^^^ 0x5c)) ++ sha256 ((kp.map (fun b => b ^^^ 0x36)) ++ msg))

/-! ## Go strings -/

/-- The bytes of an ASCII Go string. -/
def charsToBytes (cs : List Char) : List Nat := cs.map Char.toNat

/-- `strings.ToUpper` on an ASCII character. -/
def asciiUpperChar (c : Char) : Char :=
  if 97 ≤ c.toNat ∧ c.toNat ≤ 122 then Char.ofNat (c.toNat - 32) else c

/-! ## The signing primitive (`pkg/auth/hmac.go`) -/

/-- `CanonicalString`: method upper-cased, path, timestamp, nonce and
body hash joined by a single newline. -/
def canonicalChars (method path ts nonce bodyHex : List Char) : List Char :=
  method.map asciiUpperChar ++ '\n' :: path ++ '\n' :: ts ++ '\n' :: nonce ++ '\n' :: bodyHex

/-- `BodySHA256Hex`: lowercase hex SHA-256 of the request body. -/
def bodySHA256Hex (body : List Nat) : List Char := bytesToHexChars (sha256 body)

/-- `ComputeSignature`: hex HMAC-SHA256 of the canonical string under
the shared secret. -/
def computeSignature (method path : List Char) (body : List Nat) (ts nonce secret : List Char) :
    List Char :=
  bytesToHexChars (hmacSha256 (charsToBytes secret)
    (charsToBytes (canonicalChars method path ts nonce (bodySHA256Hex body))))

/-- The scheme literal `AuthHeaderPrefix = "RCS-HMAC-SHA256"`. -/
def rcsTag : List Char := "RCS-HMAC-SHA256".data

/-- The whitespace class of `strings.TrimSpace` restricted to ASCII
(`unicode.IsSpace` on bytes below 0x80). -/
def isGoSpace (c : Char) : Bool :=
  c == ' ' || c == '\t' || c == '\n' || c == '\x0b' || c == '\x0c' || c == '\r'

/-- `strings.TrimSpace` on ASCII strings. -/
def trimSpace (cs : List Char) : List Char :=
  ((cs.dropWhile isGoSpace).reverse.dropWhile isGoSpace).reverse

/-- `strings.Split(s, ",")`. -/
def splitOnComma : List Char → List (List Char)
  | [] => [[]]
  | c :: rest =>
      if c = ',' then [] :: splitOnComma rest
      else
        match splitOnComma rest with
        | [] => [[c]]
        | g :: gs => (c :: g) :: gs

/-- `strings.SplitN(s, "=", 2)`: split at the first `=`; `none` when
the string has no `=` (Go returns a single fragment there). -/
def splitN2Eq : List Char → Option (List Char × List Char)
  | [] => none
  | c :: rest =>
      if c = '=' then some ([], rest)
      else
        match splitN2Eq rest with
        | none => none
        | some (k, v) => some (c :: k, v)

/-- `strings.TrimPrefix`. -/
def trimPre (p s : List Char) : List Char :=
  if p.isPrefixOf s then s.drop p.length else s

/-- The parsed components of the `Authorization` header (`AuthHeader`
in `pkg/auth/hmac.go`). -/
structure AuthHeader where
  keyID : List Char
  timestamp : List Char
  nonce : List Char
  signature : List Char
deriving DecidableEq, Repr

/-- The zero `AuthHeader` value the parser starts from. -/
def emptyAuthHeader : AuthHeader := ⟨[], [], [], []⟩

/-- The two failure kinds of `ParseAuthHeader`: missing scheme
literal, or a required field left empty after parsing. -/
inductive AuthParseError
  | badScheme
  | missingFields
deriving DecidableEq, Repr

/-- One iteration of the `ParseAuthHeader` loop: split a fragment at
its first `=`, trim both sides and assign the matching field; a
fragment without `=`, or with an unknown key, changes nothing. -/
def setAuthField (a : AuthHeader) (pair : List Char) : AuthHeader :=
  match splitN2Eq pair with
  | none => a
  | some (k, v) =>
      let key := trimSpace k
      let val := trimSpace v
      if key = "keyId".data then { a with keyID := val }
      else if key = "ts".data then { a with timestamp := val }
      else if key = "nonce".data then { a with nonce := val }
      else if key = "sig".data then { a with signature := val }
      else a

/-- `ParseAuthHeader`: require the scheme literal, strip it, split on
commas, fold the fragments, and reject when any field stayed empty. -/
def parseAuthHeader (s : List Char) : Except AuthParseError AuthHeader :=
  if rcsTag.isPrefixOf s then
    let parts := trimPre (rcsTag ++ [' ']) s
    let a := (splitOnComma parts).foldl setAuthField emptyAuthHeader
    if a.keyID = [] ∨ a.timestamp = [] ∨ a.nonce = [] ∨ a.signature = [] then
      .error .missingFields
    else .ok a
  else .error .badScheme

/-- The exact rendering `fmt.Sprintf("%s keyId=%s,ts=%s,nonce=%s,sig=%s", ...)`
used by `CreateAuthHeader`. -/
def formatAuthHeader (a : AuthHeader) : List Char :=
  rcsTag ++ " keyId=".data ++ a.keyID ++ ",ts=".data ++ a.timestamp ++
    ",nonce=".data ++ a.nonce ++ ",sig=".data ++ a.signature

/-- Lookup in the `map[string]string` of secrets. -/
def lookupSecret (secrets : List (List Char × List Char)) (k : List Char) :
    Option (List Char) :=
  (secrets.find? (fun p => p.fst = k)).map Prod.snd

/-- `CreateAuthHeader`: empty string when the key id is unknown,
otherwise the formatted header with a fresh signature.  The wall-clock
timestamp `ts` is a parameter. -/
def createAuthHeader (secrets : List (List Char × List Char)) (method path : List Char)
    (body : List Nat) (keyID nonce ts : List Char) : List Char :=
  match lookupSecret secrets keyID with
  | none => []
  | some secret =>
      formatAuthHeader ⟨keyID, ts, nonce, computeSignature method path body ts nonce secret⟩

/-- Value of a decimal digit string. -/
def digitsVal (cs : List Char) : Nat :=
  cs.foldl (fun acc c => acc * 10 + (c.toNat - 48)) 0

/-- `strconv.ParseInt(s, 10, 64)`: optional sign, a non-empty run of
decimal digits, and a 64-bit range check. -/
def parseInt64 (s : List Char) : Option Int :=
  let core : List Char → Bool → Option Int := fun ds neg =>
    if ds = [] ∨ ¬ ds.all (fun c => 48 ≤ c.toNat ∧ c.toNat ≤ 57) then none
    else
      let v := digitsVal ds
      if neg then (if v ≤ 9223372036854775808 then some (-(v : Int)) else none)
      else (if v ≤ 9223372036854775807 then some (v : Int) else none)
  match s with
  | '+' :: rest => core rest false
  | '-' :: rest => core rest true
  | _ => core s false

/-- The four failure kinds of `VerifySignature`, in source order. -/
inductive VerifyError
  | unknownKey
  | invalidTimestamp
  | outsideSkew
  | sigMismatch
deriving DecidableEq, Repr

/-- `VerifySignature`: key lookup, timestamp parse, clock-skew window
(`abs(now-ts) > skew` rejects), then comparison with the recomputed
signature.  `now` and the skew are passed in seconds. -/
def verifySignature (secrets : List (List Char × List Char)) (skewSeconds : Int) (now : Int)
    (method path : List Char) (body : List Nat) (a : AuthHeader) : Except VerifyError Unit :=
  match lookupSecret secrets a.keyID with
  | none => .error .unknownKey
  | some secret =>
      match parseInt64 a.timestamp with
      | none => .error .invalidTimestamp
      | some ts =>
          if skewSeconds < |now - ts| then .error .outsideSkew
          else if a.signature = computeSignature method path body a.timestamp a.nonce secret then
            .ok ()
          else .error .sigMismatch

/-! ## The validation engine (`pkg/validator/validator.go`)

`float64` values are modelled as IEEE-754 binary64: a finite double is
an integer mantissa scaled by a power of two (every finite double is
`m * 2^e` with `|m| ≤ 2^53` and `e ≥ -1074`), and both parsing and
subtraction round to nearest with ties to even, exactly as the
hardware does, so the comparison verdicts below are the ones the Go
program computes.  `strconv.ParseFloat` is modelled on its
decimal-literal core (the `Inf`/`NaN`/hex-literal forms do not occur
in this system); its range error on overflow is `none`, as in Go, and
an underflow rounds to zero without error. -/

/-- An IEEE-754 binary64 value as produced by parsing or arithmetic:
a finite dyadic `m * 2^e`, or an infinity (from overflow in
subtraction).  `NaN` cannot arise at the call sites of this model. -/
inductive F64 where
  | finite (m : ℤ) (e : ℤ)
  | inf (neg : Bool)
deriving DecidableEq, Repr

/-- Bit length of a natural number, fuelled; `fuel ≥ n` suffices. -/
def natBits : ℕ → ℕ → ℕ
  | 0, _ => 0
  | fuel + 1, n => if n = 0 then 0 else natBits fuel (n / 2) + 1

/-- Round `n / d` to the nearest integer, ties to even. -/
def rne (n d : ℕ) : ℕ :=
  let q := n / d
  let r := n % d
  if 2 * r < d then q
  else if d < 2 * r then q + 1
  else if q % 2 = 0 then q else q + 1

/-- Scale the value `(a / d) * 2^e` by doubling `a` until the quotient
reaches `2^52` or the exponent reaches the subnormal floor `-1074`;
returns the new `a` and exponent. -/
def normUp : ℕ → ℕ → ℕ → ℤ → ℕ × ℤ
  | 0, a, _, e => (a, e)
  | fuel + 1, a, d, e =>
      if a < 4503599627370496 * d ∧ -1074 < e then normUp fuel (2 * a) d (e - 1)
      else (a, e)

/-- Scale the value `(a / d) * 2^e` by doubling `d` until the quotient
drops below `2^53`; returns the new `d` and exponent. -/
def normDown : ℕ → ℕ → ℕ → ℤ → ℕ × ℤ
  | 0, _, d, e => (d, e)
  | fuel + 1, a, d, e =>
      if 9007199254740992 * d ≤ a then normDown fuel a (2 * d) (e + 1)
      else (d, e)

/-- Round the positive rational `a / d` to the nearest binary64, ties
to even, with gradual underflow; `none` is the overflow (range error)
outcome, reached exactly when the rounded value exceeds the largest
finite double `(2^53 - 1) * 2^971`. -/
def roundPosRat (fuel a d : ℕ) : Option F64 :=
  if a = 0 then some (.finite 0 0)
  else
    let s1 := normUp fuel a d 0
    let s2 := normDown fuel s1.fst d s1.snd
    let m := rne s1.fst s2.fst
    if 971 < s2.snd ∨ (s2.snd = 971 ∧ 9007199254740992 ≤ m) then none
    else some (.finite (m : ℤ) s2.snd)

/-- Round a signed dyadic `M * 2^e` — the exact difference of two
finite doubles, so `e ≥ -1074` — to the nearest binary64, ties to
even; overflow gives the correctly signed infinity. -/
def roundDyadic (M : ℤ) (e : ℤ) : F64 :=
  if M = 0 then .finite 0 0
  else
    let n := M.natAbs
    let s := natBits n n
    if s ≤ 53 then .finite M e
    else
      let r := s - 53
      let m := rne n (2 ^ r)
      let e' := e + (r : ℤ)
      if 971 < e' ∨ (e' = 971 ∧ 9007199254740992 ≤ m) then .inf (decide (M < 0))
      else .finite (if M < 0 then -(m : ℤ) else (m : ℤ)) e'

/-- Negation of a double (exact). -/
def f64Neg : F64 → F64
  | .finite m e => .finite (-m) e
  | .inf b => .inf (!b)

/-- IEEE-754 subtraction: the exact difference, re-rounded. -/
def f64Sub : F64 → F64 → F64
  | .finite mx ex, .finite mv ey =>
      let e0 := min ex ey
      roundDyadic (mx * ((2 ^ (ex - e0).toNat : ℕ) : ℤ) -
        mv * ((2 ^ (ey - e0).toNat : ℕ) : ℤ)) e0
  | .inf b, _ => .inf b
  | .finite _ _, .inf b => .inf (!b)

/-- `math.Abs` (exact). -/
def f64Abs : F64 → F64
  | .finite m e => .finite |m| e
  | .inf _ => .inf false

/-- The `<=` comparison of doubles, by value. -/
def f64Le : F64 → F64 → Bool
  | .finite mx ex, .finite mv ey =>
      let e0 := min ex ey
      decide (mx * ((2 ^ (ex - e0).toNat : ℕ) : ℤ) ≤
        mv * ((2 ^ (ey - e0).toNat : ℕ) : ℤ))
  | .inf bx, .inf bv => bx || !bv
  | .inf bx, .finite _ _ => bx
  | .finite _ _, .inf bv => !bv

/-- The `==` comparison of doubles, by value. -/
def f64Eq : F64 → F64 → Bool
  | .finite mx ex, .finite mv ey =>
      let e0 := min ex ey
      decide (mx * ((2 ^ (ex - e0).toNat : ℕ) : ℤ) =
        mv * ((2 ^ (ey - e0).toNat : ℕ) : ℤ))
  | .inf bx, .inf bv => bx == bv
  | _, _ => false

/-- Whether a double is (either signed) zero. -/
def f64IsZero : F64 → Bool
  | .finite m _ => m == 0
  | .inf _ => false

/-- Is `c` a decimal digit? -/
def isDigitChar (c : Char) : Bool := 48 ≤ c.toNat && c.toNat ≤ 57

/-- Split a character list at the first character satisfying `p`;
`none` when no character does. -/
def splitFirst (p : Char → Bool) : List Char → Option (List Char × List Char)
  | [] => none
  | c :: rest =>
      if p c then some ([], rest)
      else
        match splitFirst p rest with
        | none => none
        | some (a, b) => some (c :: a, b)

/-- Convert a parsed decimal — sign, digit string, number of
fractional digits, decimal exponent — to the nearest binary64, the
value being `digits * 10 ^ (ex - fracLen)`.  The magnitude guards
mirror the decimal-exponent clamping of `strconv`: a value certainly
at or beyond `1e309` (above the largest finite double) is a range
error, and one certainly below `1e-324` (below half the smallest
subnormal) underflows to zero. -/
def parsedToF64 (neg : Bool) (digits : List Char) (fracLen : ℕ) (ex : ℤ) : Option F64 :=
  let D := digitsVal digits
  if D = 0 then some (.finite 0 0)
  else
    let sigLen : ℤ := ((digits.dropWhile (fun c => c = '0')).length : ℤ)
    let p : ℤ := ex - (fracLen : ℤ)
    if 310 ≤ sigLen + p then none
    else if sigLen + p ≤ -324 then some (.finite 0 0)
    else
      let fuel := 2800 + 32 * digits.length
      let a := if 0 ≤ p then D * 10 ^ p.toNat else D
      let d := if 0 ≤ p then 1 else 10 ^ (-p).toNat
      (roundPosRat fuel a d).map (fun f => if neg then f64Neg f else f)

/-- The decimal core of `strconv.ParseFloat(s, 64)`: optional sign,
a mantissa with at least one digit and at most one point, and an
optional decimal exponent; the value is the nearest binary64. -/
def parseGoFloat (s : List Char) : Option F64 :=
  let mantissa : List Char → Option (List Char × ℕ) := fun ds =>
    match splitFirst (fun c => c = '.') ds with
    | none =>
        if ds ≠ [] ∧ ds.all isDigitChar then some (ds, 0) else none
    | some (a, b) =>
        if (a ≠ [] ∨ b ≠ []) ∧ a.all isDigitChar ∧ b.all isDigitChar then
          some (a ++ b, b.length)
        else none
  let signed : List Char → Option (Bool × List Char × ℕ) := fun t =>
    match t with
    | '+' :: rest => (mantissa rest).map (fun m => (false, m))
    | '-' :: rest => (mantissa rest).map (fun m => (true, m))
    | _ => (mantissa t).map (fun m => (false, m))
  match splitFirst (fun c => c = 'e' ∨ c = 'E') s with
  | none =>
      match signed s with
      | some (n, ds, k) => parsedToF64 n ds k 0
      | none => none
  | some (m, ex) =>
      let expVal : Option Int :=
        match ex with
        | '+' :: rest => if rest ≠ [] ∧ rest.all isDigitChar then some (digitsVal rest) else none
        | '-' :: rest => if rest ≠ [] ∧ rest.all isDigitChar then some (-(digitsVal rest : Int)) else none
        | _ => if ex ≠ [] ∧ ex.all isDigitChar then some (digitsVal ex) else none
      match signed m, expVal with
      | some (n, ds, k), some e => parsedToF64 n ds k e
      | _, _ => none

/-- The decoded JSON parameter document of a validation rule.  Each
optional field models the presence of the corresponding JSON key
(`case_sensitive`, `tolerance`, `pattern`); an absent key leaves the
Go zero value in place after `json.Unmarshal`. -/
structure RuleParams where
  caseSensitive : Option Bool
  tolerance : Option F64
  pattern : Option String
deriving DecidableEq, Repr

/-- `models.ValidationRule`: a type tag, an optional params document
(`none` models a nil `Params`), and the stored answer. -/
structure ValidationRule where
  ruleType : String
  params : Option RuleParams
  answer : String
deriving DecidableEq, Repr

/-- The hard-error kinds of `ValidateAnswer`, one per `return false,
fmt.Errorf(...)` site exercised by this model. -/
inductive ValError
  | unknownRuleType
  | missingParams
  | badExpectedFloat
  | badReceivedFloat
  | badPattern
deriving DecidableEq, Repr

/-- `strings.EqualFold` on ASCII strings. -/
def eqFoldAscii (a b : String) : Bool :=
  a.data.map asciiUpperChar == b.data.map asciiUpperChar

/-- The Go `regexp` engine is an external library from the viewpoint
of this model; a matcher is any function from pattern and candidate to
a verdict or a compile failure. -/
def RegexOracle : Type := String → String → Except ValError Bool

/-- `validateExactMatch`: case sensitivity defaults to true and is
overridden by a present `case_sensitive` key. -/
def validateExactMatch (rule : ValidationRule) (received : String) : Except ValError Bool :=
  let cs :=
    match rule.params with
    | none => true
    | some p => p.caseSensitive.getD true
  if cs then .ok (rule.answer = received)
  else .ok (eqFoldAscii rule.answer received)

/-- `validateNumericTolerance`: require params, parse both strings as
floats (hard errors on failure), and compare the absolute difference
with the tolerance. -/
def validateNumericTolerance (rule : ValidationRule) (received : String) :
    Except ValError Bool :=
  match rule.params with
  | none => .error .missingParams
  | some p =>
      let tol := p.tolerance.getD (.finite 0 0)
      match parseGoFloat rule.answer.data with
      | none => .error .badExpectedFloat
      | some e =>
          match parseGoFloat received.data with
          | none => .error .badReceivedFloat
          | some g => .ok (f64Le (f64Abs (f64Sub e g)) tol)

/-- `validateRegex`: require params, then defer to the regex engine. -/
def validateRegex (rm : RegexOracle) (rule : ValidationRule) (received : String) :
    Except ValError Bool :=
  match rule.params with
  | none => .error .missingParams
  | some p => rm (p.pattern.getD "") received

/-- `ValidateAnswer`: dispatch on the rule type tag. -/
def validateAnswer (rm : RegexOracle) (rule : ValidationRule) (received : String) :
    Except ValError Bool :=
  if rule.ruleType = "ExactMatch" then validateExactMatch rule received
  else if rule.ruleType = "NumericTolerance" then validateNumericTolerance rule received
  else if rule.ruleType = "Regex" then validateRegex rm rule received
  else .error .unknownRuleType

/-! ## Challenger data model and result store
(`pkg/models/models.go`, `pkg/db/challenger.go`)

SQLite tables are lists of rows.  The auto-increment row ids and
`TIMESTAMP` columns carry no behavior the claims touch; timestamps are
modelled as Unix seconds passed in from the clock. -/

/-- `models.CallbackRequest`.  `metadata` is the raw JSON message
(`none` models nil); `metaComputeTimeMs` models the outcome of
`json.Unmarshal(metadata, &SolverMetadata)` — `none` when that
unmarshal fails, otherwise the `compute_time_ms` value. -/
structure CallbackRequest where
  apiVersion : String
  challengeID : String
  solverJobID : String
  status : String
  answer : String
  errorCode : String
  errorMessage : String
  metadata : Option String
  metaComputeTimeMs : Option Int
deriving DecidableEq, Repr

/-- JSON rendering of a string none of whose characters the Go
encoder escapes (plain printable ASCII without `"`, `\`, `<`, `>`,
`&`); every string this model marshals is of that form. -/
def jsonQuotePlain (s : String) : String := "\"" ++ s ++ "\""

/-- `json.Marshal` on a `models.CallbackRequest` value: fields in
declaration order, `omitempty` on `answer`, `error_code`,
`error_message` and `metadata`, the raw metadata message emitted
verbatim. -/
def marshalCallbackRequest (r : CallbackRequest) : String :=
  "\x7b\"api_version\":" ++ jsonQuotePlain r.apiVersion ++
    ",\"challenge_id\":" ++ jsonQuotePlain r.challengeID ++
    ",\"solver_job_id\":" ++ jsonQuotePlain r.solverJobID ++
    ",\"status\":" ++ jsonQuotePlain r.status ++
    (if r.answer = "" then "" else ",\"answer\":" ++ jsonQuotePlain r.answer) ++
    (if r.errorCode = "" then "" else ",\"error_code\":" ++ jsonQuotePlain r.errorCode) ++
    (if r.errorMessage = "" then "" else ",\"error_message\":" ++ jsonQuotePlain r.errorMessage) ++
    (match r.metadata with | none => "" | some m => ",\"metadata\":" ++ m) ++
    "\x7d"

/-- `models.Challenge` (the challenger's problem row). -/
structure Challenge where
  id : String
  ctype : String
  problem : String
  outputSpec : String
  rule : ValidationRule
  createdAt : Int
deriving DecidableEq, Repr

/-- `models.Result` (one row of the challenger's `results` table; the
auto-increment id is not modelled). -/
structure Result where
  challengeID : String
  requestID : String
  solverJobID : String
  status : String
  receivedAnswer : String
  isCorrect : Bool
  solverAddress : String
  computeTimeMs : Int
  solverMetadata : Option String
  createdAt : Int
deriving DecidableEq, Repr

/-- `models.WebhookAudit` (one row of the `webhooks` table). -/
structure WebhookAudit where
  challengeID : String
  requestID : String
  headers : String
  bodyHash : String
  statusCode : Nat
  createdAt : Int
deriving DecidableEq, Repr

/-- Does a stored row collide with `r` on the unique key
`(challenge_id, request_id)`? -/
def sameResultKey (r x : Result) : Bool :=
  x.challengeID == r.challengeID && x.requestID == r.requestID

/-- `SaveResultWithDuplicateCheck`: `INSERT OR IGNORE` under the
`UNIQUE (challenge_id, request_id)` constraint, reporting through
`RowsAffected` whether the row was actually inserted. -/
def saveResultWithDuplicateCheck (results : List Result) (r : Result) :
    Bool × List Result :=
  if results.any (sameResultKey r) then (false, results)
  else (true, results ++ [r])

/-- `GetResult`: the row under the unique key, or `none`. -/
def getResult (results : List Result) (cid rid : String) : Option Result :=
  results.find? (fun x => x.challengeID == cid && x.requestID == rid)

/-- `ChallengerDB.GetChallenge`: a single-row `SELECT` whose `Scan`
fails both on a backend fault and on `sql.ErrNoRows`; the function
returns an error in either case, without distinguishing them.
`fault` injects a backend failure. -/
def dbGetChallenge (fault : Bool) (tbl : List Challenge) (id : String) :
    Except String Challenge :=
  if fault then .error "failed to get challenge: backend failure"
  else
    match tbl.find? (fun c => c.id == id) with
    | none => .error "failed to get challenge: sql: no rows in result set"
    | some c => .ok c

/-- `SaveWebhookAudit`: append-only insert. -/
def saveWebhookAudit (webhooks : List WebhookAudit) (a : WebhookAudit) :
    List WebhookAudit :=
  webhooks ++ [a]

/-! ## The callback receiver (`internal/challenger/service.go`) -/

/-- `Service.serializeHeaders`: `"Key: value"` lines joined by
newlines (Go iterates the header map; the model fixes the request's
given order). -/
def serializeHeaders (hs : List (String × String)) : String :=
  String.intercalate "\n" (hs.map (fun p => p.fst ++ ": " ++ p.snd))

/-- `http.Header.Get`: first value under the name, `""` when absent. -/
def headerGet (hs : List (String × String)) (k : String) : String :=
  ((hs.find? (fun p => p.fst == k)).map Prod.snd).getD ""

/-- Hex digits of `x`, most significant first (`fmt`'s `%x`), by
fuelled division. -/
def natHexAux : Nat → Nat → List Char
  | 0, _ => []
  | fuel + 1, x => if x = 0 then [] else natHexAux fuel (x / 16) ++ [hexDigitChar (x % 16)]

/-- `fmt.Sprintf("%x", x)`. -/
def natToHexChars (x : Nat) : List Char :=
  if x = 0 then ['0'] else natHexAux x x

/-- `fmt.Sprintf("%040x", x)[:40]`. -/
def fmt040xTrunc (x : Nat) : String :=
  let h := natToHexChars x
  String.mk ((List.replicate (40 - h.length) '0' ++ h).take 40)

/-- The solver-address extraction of `HandleCallback`: the
`X-Solver-Address` request header, or the placeholder
`"0x" + %040x(len(RemoteAddr))` when the header is absent (or
empty, which `Header.Get` cannot distinguish from absent). -/
def extractSolverAddress (headers : List (String × String)) (remoteAddr : String) : String :=
  let v := headerGet headers "X-Solver-Address"
  if v = "" then "0x" ++ fmt040xTrunc remoteAddr.length else v

/-- The challenger's state: the three stores, plus fault flags
injecting backend failures of the challenge `SELECT` and the result
`INSERT` (a SQLite-level error, not a missing row). -/
structure ChallengerState where
  challenges : List Challenge
  results : List Result
  webhooks : List WebhookAudit
  getChallengeFault : Bool
  saveResultFault : Bool
deriving Repr

/-- One incoming callback HTTP request.  `decodedBody` is the result
of `json.NewDecoder(r.Body).Decode` on `rawBody` (`none` = JSON parse
failure); callers supply a coherent pair. -/
structure CallbackHttpRequest where
  urlChallengeID : String
  headers : List (String × String)
  rawBody : String
  decodedBody : Option CallbackRequest
  remoteAddr : String
deriving Repr

/-- `models.CallbackResponse`. -/
structure CallbackResponse where
  received : Bool
  challengeID : String
  duplicate : Bool
deriving DecidableEq, Repr

/-- What `HandleCallback` writes back: a 200 with a callback response,
or an error envelope with a status and a code. -/
inductive HandlerResponse
  | ok (resp : CallbackResponse)
  | err (status : Nat) (code : String)
deriving DecidableEq, Repr

/-- The result row `HandleCallback` builds from an accepted callback
(lines 212–232): URL challenge id, `X-Request-ID`, the validation
verdict, the extracted solver address, and the compute time recovered
from the metadata when it unmarshals. -/
def callbackResult (rm : RegexOracle) (now : Int) (challenge : Challenge)
    (req : CallbackHttpRequest) (cb : CallbackRequest) : Result :=
  { challengeID := req.urlChallengeID
    requestID := headerGet req.headers "X-Request-ID"
    solverJobID := cb.solverJobID
    status := cb.status
    receivedAnswer := cb.answer
    isCorrect :=
      if cb.status = "success" ∧ cb.answer ≠ "" then
        match validateAnswer rm challenge.rule cb.answer with
        | .error _ => false
        | .ok b => b
      else false
    solverAddress := extractSolverAddress req.headers req.remoteAddr
    computeTimeMs :=
      match cb.metadata with
      | none => 0
      | some _ => cb.metaComputeTimeMs.getD 0
    solverMetadata := cb.metadata
    createdAt := now }

/-- The audit row `HandleCallback` appends on a non-duplicate (lines
246–258): serialized request headers and the hex SHA-256 of
`json.Marshal(callbackReq)` — the re-marshalled decoded payload. -/
def callbackAudit (now : Int) (req : CallbackHttpRequest) (cb : CallbackRequest) :
    WebhookAudit :=
  { challengeID := req.urlChallengeID
    requestID := headerGet req.headers "X-Request-ID"
    headers := serializeHeaders req.headers
    bodyHash :=
      String.mk (bytesToHexChars (sha256 (charsToBytes (marshalCallbackRequest cb).data)))
    statusCode := 200
    createdAt := now }

/-- `Service.HandleCallback`, lines 142–321 of
`internal/challenger/service.go`: decode, path/body consistency,
challenge lookup (any store error maps to 404), validation (hard
errors leave `is_correct=false`), solver-address extraction, the
idempotent result insert, the audit record on non-duplicates only,
and the 200 response carrying the duplicate flag.  The post-commit
side effects (Sui upload, log upload) have no bearing on state or
response and are not modelled; `now` is the wall clock in Unix
seconds. -/
def handleCallback (rm : RegexOracle) (now : Int) (st : ChallengerState)
    (req : CallbackHttpRequest) : ChallengerState × HandlerResponse :=
  match req.decodedBody with
  | none => (st, .err 400 "INVALID_JSON")
  | some cb =>
      if cb.challengeID ≠ req.urlChallengeID then
        (st, .err 400 "CHALLENGE_ID_MISMATCH")
      else
        match dbGetChallenge st.getChallengeFault st.challenges req.urlChallengeID with
        | .error _ => (st, .err 404 "CHALLENGE_NOT_FOUND")
        | .ok challenge =>
            let result := callbackResult rm now challenge req cb
            if st.saveResultFault then (st, .err 500 "DB_ERROR")
            else
              let r := saveResultWithDuplicateCheck st.results result
              let isDuplicate := ! r.fst
              let webhooks' :=
                if isDuplicate then st.webhooks
                else saveWebhookAudit st.webhooks (callbackAudit now req cb)
              ({ st with results := r.snd, webhooks := webhooks' },
               .ok { received := true, challengeID := req.urlChallengeID,
                     duplicate := isDuplicate })

/-! ## The auth middleware chain (`pkg/api/middleware.go`)

The services install `RequestLogging`, `SizeLimit`, `CORS` on the
router and `HMACAuth` on the protected subrouters; `SizeLimit` wraps
the body in `http.MaxBytesReader(w, body, MaxRequestSize)` and the
rejection surfaces where `HMACAuth` buffers the body with
`io.ReadAll`.  Logging and CORS do not affect protected-request
outcomes and are not modelled. -/

/-- `MaxRequestSize = 5 * 1024 * 1024`. -/
def maxRequestSize : Nat := 5 * 1024 * 1024

/-- A protected-endpoint request as the middleware sees it:
`authHeader = []` models a missing `Authorization` header (Go's
`Header.Get` returns `""` there). -/
structure MWRequest where
  method : List Char
  path : List Char
  authHeader : List Char
  body : List Nat
deriving Repr

/-- The middleware verdict: an error envelope with HTTP status and
code, or the request handed to the handler with the authenticated
identity attached. -/
inductive MWResult
  | reject (status : Nat) (code : String)
  | pass (keyID ts nonce : List Char) (body : List Nat)
deriving DecidableEq, Repr

/-- `io.ReadAll` on a body wrapped by `http.MaxBytesReader(_, _,
limit)`: the full body when it has at most `limit` bytes, an error
otherwise. -/
def readAllLimited (limit : Nat) (body : List Nat) : Option (List Nat) :=
  if body.length ≤ limit then some body else none

/-- The `HMACAuth` middleware over a body capped at `limit`: header
presence, parse, body buffering, nonce replay, signature.  The
best-effort nonce save and the context headers it sets for handlers
are not observable in the verdict. -/
def hmacAuthStage (secrets : List (List Char × List Char)) (skewSeconds now : Int)
    (seenNonces : List (List Char)) (limit : Nat) (r : MWRequest) : MWResult :=
  if r.authHeader = [] then .reject 401 "MISSING_AUTH"
  else
    match parseAuthHeader r.authHeader with
    | .error _ => .reject 401 "INVALID_AUTH"
    | .ok a =>
        match readAllLimited limit r.body with
        | none => .reject 400 "READ_ERROR"
        | some body =>
            if seenNonces.contains a.nonce then .reject 401 "REPLAY_ATTACK"
            else
              match verifySignature secrets skewSeconds now r.method r.path body a with
              | .error _ => .reject 401 "INVALID_SIGNATURE"
              | .ok _ => .pass a.keyID a.timestamp a.nonce body

/-- The protected-endpoint chain: `SizeLimit` installs the 5 MiB cap,
`HMACAuth` runs behind it. -/
def middlewareChain (secrets : List (List Char × List Char)) (skewSeconds now : Int)
    (seenNonces : List (List Char)) (r : MWRequest) : MWResult :=
  hmacAuthStage secrets skewSeconds now seenNonces maxRequestSize r

/-! ## The callback sender and its retry loop
(`internal/solver/service.go`, `internal/solver/worker.go`) -/

/-- `MaxRetryAttempts = 6`. -/
def maxRetryAttempts : Nat := 6

/-- `BaseDelay = 500ms`, in nanoseconds. -/
def baseDelayNs : ℚ := 500000000

/-- `MaxDelay = 30s`, in nanoseconds. -/
def maxDelayNs : ℚ := 30000000000

/-- `JitterMin = 0.85`. -/
def jitterLo : ℚ := 85 / 100

/-- `JitterMax = 1.15`. -/
def jitterHi : ℚ := 115 / 100

/-- One delivery attempt's observable outcome: `none` when
`SendCallback` returned an error (its status is 0 there), otherwise
the HTTP response status. -/
abbrev AttemptOutcome : Type := Option Int

/-- The success test of `sendCallbackWithRetry`:
`err == nil && 200 <= status < 300`. -/
def isSuccessStatus (o : AttemptOutcome) : Bool :=
  match o with
  | none => false
  | some s => 200 ≤ s && s < 300

/-- `WorkerPool.shouldRetry`: any send error, status 429, or any
status of at least 500 retries; everything else is terminal. -/
def goShouldRetry (o : AttemptOutcome) : Bool :=
  match o with
  | none => true
  | some s =>
      if s = 429 then true
      else if 500 ≤ s then true
      else if 400 ≤ s ∧ s < 500 then false
      else false

/-- `calculateBackoffDelay`'s pre-jitter delay:
`min(MaxDelay, BaseDelay · 2^attempt)` (the cap is applied before the
jitter), `attempt` 0-indexed. -/
def backoffBaseNs (attempt : Nat) : ℚ :=
  min maxDelayNs (baseDelayNs * 2 ^ attempt)

/-- The jitter factor `JitterMin + u·(JitterMax − JitterMin)` for a
draw `u` of `rand.Float64()`. -/
def jitterFactor (u : ℚ) : ℚ := jitterLo + u * (jitterHi - jitterLo)

/-- `calculateBackoffDelay` — the slept duration after a failed
attempt, in (exact) nanoseconds. -/
def calculateBackoffDelay (attempt : Nat) (u : ℚ) : ℚ :=
  backoffBaseNs attempt * jitterFactor u

/-- How `sendCallbackWithRetry` ends: delivered (2xx), terminal on a
non-retryable outcome, or the retry budget exhausted. -/
inductive RetryOutcome
  | delivered
  | nonRetryable
  | exhausted
deriving DecidableEq, Repr

/-- The observable trace of one `sendCallbackWithRetry` run: how many
attempts were made, the sleeps between them, and the way it ended. -/
structure RetryTrace where
  attemptsMade : Nat
  sleeps : List ℚ
  outcome : RetryOutcome
deriving DecidableEq, Repr

/-- The `for attempt := 0; attempt < MaxRetryAttempts; attempt++` loop
of `sendCallbackWithRetry`, with the per-attempt outcomes and the
jitter draws supplied as oracles; `fuel` counts the remaining loop
iterations. -/
def retryLoop (outcomes : Nat → AttemptOutcome) (us : Nat → ℚ) :
    Nat → Nat → RetryTrace
  | _, 0 => ⟨0, [], .exhausted⟩
  | attempt, fuel + 1 =>
      let o := outcomes attempt
      if isSuccessStatus o then ⟨1, [], .delivered⟩
      else if ¬ goShouldRetry o then ⟨1, [], .nonRetryable⟩
      else if fuel = 0 then ⟨1, [], .exhausted⟩
      else
        let t := retryLoop outcomes us (attempt + 1) fuel
        ⟨t.attemptsMade + 1, calculateBackoffDelay attempt (us attempt) :: t.sleeps, t.outcome⟩

/-- `sendCallbackWithRetry`: at most `MaxRetryAttempts` attempts from
attempt 0. -/
def sendCallbackWithRetry (outcomes : Nat → AttemptOutcome) (us : Nat → ℚ) : RetryTrace :=
  retryLoop outcomes us 0 maxRetryAttempts

/-- One row of the solver's `pending_challenges` table, restricted to
the columns `processChallenge`'s final transition touches. -/
structure PendingRow where
  id : String
  status : String
  attemptCount : Nat
deriving DecidableEq, Repr

/-- `UpdateChallengeStatus` (the columns the final transition sets). -/
def updateChallengeStatus (rows : List PendingRow) (id status : String) (ac : Nat) :
    List PendingRow :=
  rows.map (fun r => if r.id == id then { r with status := status, attemptCount := ac } else r)

/-- `DeleteChallenge`. -/
def deleteChallenge (rows : List PendingRow) (id : String) : List PendingRow :=
  rows.filter (fun r => r.id ≠ id)

/-- The tail of `WorkerPool.processChallenge` (lines 272–280): a
failed retry run marks the row `failed` with
`attempt_count = MaxRetryAttempts`; a delivered run deletes it. -/
def processChallengeFinish (rows : List PendingRow) (id : String) (t : RetryTrace) :
    List PendingRow :=
  if t.outcome = .delivered then deleteChallenge rows id
  else updateChallengeStatus rows id "failed" maxRetryAttempts

/-- An outbound HTTP request as `SendCallback` builds it. -/
structure HttpOutRequest where
  url : String
  headers : List (String × String)
  body : List Nat
deriving DecidableEq, Repr

/-- `Service.SendCallback`, up to the wire (lines 161–197 of
`internal/solver/service.go`): marshal the payload, sign it with the
Challenger-facing key id over the path `"/callback/<challenge_id>"`,
fail before building the request when `CreateAuthHeader` returned
`""`, and otherwise attach the content type, the auth header, a fresh
`X-Request-ID` and the signer's address under `X-Solver-Address`. -/
def sendCallbackRequest (secrets : List (List Char × List Char)) (chalKeyID : List Char)
    (callbackURL : String) (cb : CallbackRequest) (nonce ts : List Char)
    (requestID signerAddress : String) : Except String HttpOutRequest :=
  let body := charsToBytes (marshalCallbackRequest cb).data
  let callbackPath := "/callback/".data ++ cb.challengeID.data
  let authHeader := createAuthHeader secrets "POST".data callbackPath body chalKeyID nonce ts
  if authHeader = [] then .error "failed to create auth header"
  else
    .ok { url := callbackURL
          headers := [("Content-Type", "application/json"),
                      ("Authorization", String.mk authHeader),
                      ("X-Request-ID", requestID),
                      ("X-Solver-Address", signerAddress)]
          body := body }

/-! ## Claim C1: idempotent result storage -/

/-- The result store holds at most one row per
`(challenge_id, request_id)` pair. -/
def resultKeyUnique (s : List Result) : Prop :=
  s.Pairwise (fun a b => ¬ (a.challengeID = b.challengeID ∧ a.requestID = b.requestID))

/-- A regex oracle for concrete instances (no claim exercises the
regex branch). -/
def rmNone : RegexOracle := fun _ _ => Except.error ValError.badPattern

/-- C1.  For every pair `(problem_id, request_id)` the result store
holds at most one row: `SaveResultWithDuplicateCheck` inserts on the
first call and returns true; a later call with the same key inserts
nothing, returns false and leaves the stored row unchanged; and
`HandleCallback` sets the response's `duplicate` flag to the negation
of that boolean return. -/
theorem C1_save_result_idempotency
    (store : List Result) (r r' : Result)
    (rm : RegexOracle) (now : Int) (st : ChallengerState) (req : CallbackHttpRequest)
    (cb : CallbackRequest) (challenge : Challenge)
    (hfresh : store.any (sameResultKey r) = false)
    (hkey : r'.challengeID = r.challengeID) (hkey' : r'.requestID = r.requestID)
    (hdec : req.decodedBody = some cb) (hmatch : cb.challengeID = req.urlChallengeID)
    (hch : dbGetChallenge st.getChallengeFault st.challenges req.urlChallengeID =
      .ok challenge)
    (hsf : st.saveResultFault = false) :
    saveResultWithDuplicateCheck store r = (true, store ++ [r]) ∧
    saveResultWithDuplicateCheck (store ++ [r]) r' = (false, store ++ [r]) ∧
    getResult (store ++ [r]) r.challengeID r.requestID = some r ∧
    (∀ s : List Result, ∀ x : Result, resultKeyUnique s →
      resultKeyUnique (saveResultWithDuplicateCheck s x).snd) ∧
    (handleCallback rm now st req).snd =
      .ok { received := true, challengeID := req.urlChallengeID,
            duplicate := ! (saveResultWithDuplicateCheck st.results
                              (callbackResult rm now challenge req cb)).fst } := by
  refine ⟨?_, ?_, ?_, ?_, ?_⟩
  · simp [saveResultWithDuplicateCheck, hfresh]
  · have hr : sameResultKey r' r = true := by
      simp [sameResultKey, hkey, hkey']
    simp [saveResultWithDuplicateCheck, List.any_append, hr]
  · have hnone : store.find? (fun x =>
        x.challengeID == r.challengeID && x.requestID == r.requestID) = none := by
      rw [List.find?_eq_none]
      intro x hx
      have := (List.any_eq_false.mp hfresh) x hx
      simpa [sameResultKey] using this
    simp [getResult, List.find?_append, hnone]
  · intro s x h
    by_cases hc : s.any (sameResultKey x) = true
    · simpa [saveResultWithDuplicateCheck, hc] using h
    · have hc' : s.any (sameResultKey x) = false := by
        simpa using hc
      simp only [saveResultWithDuplicateCheck, hc', Bool.false_eq_true, if_false]
      rw [resultKeyUnique, List.pairwise_append]
      refine ⟨h, by simp, ?_⟩
      intro a ha b hb
      have hb' : b = x := by simpa using hb
      subst hb'
      have := (List.any_eq_false.mp hc') a ha
      simp only [sameResultKey, Bool.and_eq_true, beq_iff_eq] at this
      tauto
  · simp only [handleCallback, hdec, hmatch, hch, hsf]
    simp

/-- Fixture: the stored rule of the C1 sample challenge. -/
def c1Rule : ValidationRule :=
  { ruleType := "ExactMatch", params := none, answer := "42" }

/-- Fixture: the C1 sample challenge. -/
def c1Challenge : Challenge :=
  { id := "ch_1", ctype := "math", problem := "p", outputSpec := "o",
    rule := c1Rule, createdAt := 0 }

/-- Fixture: the C1 sample callback payload. -/
def c1Cb : CallbackRequest :=
  { apiVersion := "v2.1", challengeID := "ch_1", solverJobID := "solver_job_ch_1",
    status := "success", answer := "42", errorCode := "", errorMessage := "",
    metadata := none, metaComputeTimeMs := none }

/-- Fixture: the C1 sample callback request. -/
def c1Req : CallbackHttpRequest :=
  { urlChallengeID := "ch_1", headers := [("X-Request-ID", "req_1")],
    rawBody := marshalCallbackRequest c1Cb, decodedBody := some c1Cb,
    remoteAddr := "127.0.0.1:50000" }

/-- Fixture: the C1 sample challenger state. -/
def c1St : ChallengerState :=
  { challenges := [c1Challenge], results := [], webhooks := [],
    getChallengeFault := false, saveResultFault := false }

/-- Fixture: the row the C1 sample callback stores. -/
def c1Row : Result := callbackResult rmNone 7 c1Challenge c1Req c1Cb

/-- Fixture: a second row under the same key with a different answer. -/
def c1Row' : Result := { c1Row with receivedAnswer := "43", createdAt := 9 }

/-- Witness for C1 at a concrete store, row and callback request. -/
theorem C1_save_result_idempotency_witness :
    saveResultWithDuplicateCheck [] c1Row = (true, [] ++ [c1Row]) ∧
    saveResultWithDuplicateCheck ([] ++ [c1Row]) c1Row' = (false, [] ++ [c1Row]) ∧
    getResult ([] ++ [c1Row]) c1Row.challengeID c1Row.requestID = some c1Row ∧
    (∀ s : List Result, ∀ x : Result, resultKeyUnique s →
      resultKeyUnique (saveResultWithDuplicateCheck s x).snd) ∧
    (handleCallback rmNone 7 c1St c1Req).snd =
      .ok { received := true, challengeID := c1Req.urlChallengeID,
            duplicate := ! (saveResultWithDuplicateCheck c1St.results
                              (callbackResult rmNone 7 c1Challenge c1Req c1Cb)).fst } :=
  C1_save_result_idempotency [] c1Row c1Row' rmNone 7 c1St c1Req c1Cb c1Challenge
    (by decide) (by decide) (by decide) (by decide) (by decide) (by rfl) (by decide)

/-! ## Claim C2: signature verification order and skew boundary -/

/-- C2.  `VerifySignature` accepts iff the key id is known, the
timestamp parses, `|now − ts|` is at most the skew, and the recomputed
signature equals the supplied one; the checks short-circuit in the
order unknown key, bad timestamp, timestamp skew, signature mismatch;
`|now − ts| = skew` passes the skew check and `skew + 1` fails it. -/
theorem C2_verify_signature_order
    (secrets : List (List Char × List Char)) (skew now : Int)
    (method path : List Char) (body : List Nat) (a : AuthHeader) :
    (verifySignature secrets skew now method path body a = .ok () ↔
      ∃ secret, lookupSecret secrets a.keyID = some secret ∧
        ∃ ts, parseInt64 a.timestamp = some ts ∧ |now - ts| ≤ skew ∧
          a.signature = computeSignature method path body a.timestamp a.nonce secret) ∧
    (lookupSecret secrets a.keyID = none →
      verifySignature secrets skew now method path body a = .error .unknownKey) ∧
    (∀ secret, lookupSecret secrets a.keyID = some secret →
      parseInt64 a.timestamp = none →
      verifySignature secrets skew now method path body a = .error .invalidTimestamp) ∧
    (∀ secret ts, lookupSecret secrets a.keyID = some secret →
      parseInt64 a.timestamp = some ts → skew < |now - ts| →
      verifySignature secrets skew now method path body a = .error .outsideSkew) ∧
    (∀ secret ts, lookupSecret secrets a.keyID = some secret →
      parseInt64 a.timestamp = some ts → |now - ts| ≤ skew →
      a.signature ≠ computeSignature method path body a.timestamp a.nonce secret →
      verifySignature secrets skew now method path body a = .error .sigMismatch) ∧
    (∀ ts, parseInt64 a.timestamp = some ts → |now - ts| = skew →
      verifySignature secrets skew now method path body a ≠ .error .outsideSkew) ∧
    (∀ secret ts, lookupSecret secrets a.keyID = some secret →
      parseInt64 a.timestamp = some ts → |now - ts| = skew + 1 →
      verifySignature secrets skew now method path body a = .error .outsideSkew) := by
  refine ⟨?_, ?_, ?_, ?_, ?_, ?_, ?_⟩
  · constructor
    · intro h
      cases hl : lookupSecret secrets a.keyID with
      | none => simp [verifySignature, hl] at h
      | some secret =>
        cases hp : parseInt64 a.timestamp with
        | none => simp [verifySignature, hl, hp] at h
        | some ts =>
          by_cases hs : skew < |now - ts|
          · simp [verifySignature, hl, hp, hs] at h
          · by_cases hsig :
              a.signature = computeSignature method path body a.timestamp a.nonce secret
            · exact ⟨secret, rfl, ts, rfl, not_lt.mp hs, hsig⟩
            · simp [verifySignature, hl, hp, hs, hsig] at h
    · rintro ⟨secret, hl, ts, hp, hle, hsig⟩
      simp [verifySignature, hl, hp, not_lt.mpr hle, hsig]
  · intro hl
    simp [verifySignature, hl]
  · intro secret hl hp
    simp [verifySignature, hl, hp]
  · intro secret ts hl hp hs
    simp [verifySignature, hl, hp, hs]
  · intro secret ts hl hp hle hsig
    simp [verifySignature, hl, hp, not_lt.mpr hle, hsig]
  · intro ts hp heq
    cases hl : lookupSecret secrets a.keyID with
    | none => simp [verifySignature, hl]
    | some secret =>
      have hs : ¬ skew < |now - ts| := by rw [heq]; exact lt_irrefl skew
      by_cases hsig :
          a.signature = computeSignature method path body a.timestamp a.nonce secret
      · simp [verifySignature, hl, hp, hs, hsig]
      · simp [verifySignature, hl, hp, hs, hsig]
  · intro secret ts hl hp heq
    have hs : skew < |now - ts| := by rw [heq]; exact lt_add_one skew
    simp [verifySignature, hl, hp, hs]

/-- Fixture: the C2 secrets map. -/
def c2Secrets : List (List Char × List Char) := [("kid-1".data, "topsecret".data)]

/-- Fixture: an auth header whose signature is the recomputed one and
whose timestamp sits exactly at the skew boundary for `now = 400`,
`skew = 300`. -/
def c2Auth : AuthHeader :=
  { keyID := "kid-1".data, timestamp := "100".data, nonce := "n-1".data,
    signature := computeSignature "POST".data "/callback/ch_1".data [] "100".data
      "n-1".data "topsecret".data }

/-- Witness for C2: the boundary request (`|now − ts| = skew` exactly)
with a matching signature is accepted. -/
theorem C2_verify_signature_order_witness :
    verifySignature c2Secrets 300 400 "POST".data "/callback/ch_1".data [] c2Auth =
      .ok () :=
  (C2_verify_signature_order c2Secrets 300 400 "POST".data "/callback/ch_1".data []
    c2Auth).1.mpr
    ⟨"topsecret".data, by decide, 100, by decide, by decide, rfl⟩

/-! ## Claim C5: numeric-tolerance validation -/

/-- Evaluation of the fuelled bit length at zero. -/
theorem natBits_at_zero : ∀ fuel, natBits fuel 0 = 0
  | 0 => rfl
  | _ + 1 => by rw [natBits]; simp

/-- A nonzero number has a positive bit length. -/
theorem natBits_pos : ∀ (fuel n : ℕ), fuel ≠ 0 → n ≠ 0 → 1 ≤ natBits fuel n
  | 0, _, h, _ => absurd rfl h
  | _ + 1, n, _, hn => by rw [natBits, if_neg hn]; omega

/-- A positive number reaches at least `2^(bits - 1)`. -/
theorem natBits_lower : ∀ (fuel n : ℕ), n ≠ 0 → n ≤ fuel →
    2 ^ (natBits fuel n - 1) ≤ n := by
  intro fuel
  induction fuel with
  | zero => intro n hn hf; omega
  | succ f ih =>
    intro n hn hf
    rw [natBits, if_neg hn]
    by_cases h2 : n / 2 = 0
    · have h1 : n = 1 := by omega
      subst h1
      rw [natBits_at_zero]
      norm_num
    · have hf2 : n / 2 ≤ f := by omega
      have hpos : 1 ≤ natBits f (n / 2) := natBits_pos f (n / 2) (by omega) h2
      have hih := ih (n / 2) h2 hf2
      have hstep : 2 ^ (natBits f (n / 2) + 1 - 1) = 2 ^ (natBits f (n / 2) - 1) * 2 := by
        rw [Nat.add_sub_cancel, ← Nat.pow_succ]
        congr 1
        omega
      rw [hstep]
      have hdm : n / 2 * 2 ≤ n := Nat.div_mul_le_self n 2
      calc 2 ^ (natBits f (n / 2) - 1) * 2 ≤ n / 2 * 2 := by
            exact Nat.mul_le_mul_right 2 hih
        _ ≤ n := hdm

/-- Half-even rounding never rounds below a lower bound witnessed on
the numerator. -/
theorem rne_lower (n d c : ℕ) (hd : d ≠ 0) (h : c * d ≤ n) : c ≤ rne n d := by
  have hq : c ≤ n / d := (Nat.le_div_iff_mul_le (Nat.pos_of_ne_zero hd)).mpr h
  simp only [rne]
  split_ifs <;> omega

/-- Rounding an exact difference yields a zero only for the zero
difference: gradual underflow never flushes a nonzero difference of
doubles to zero. -/
theorem roundDyadic_zero_iff (M : ℤ) (e : ℤ) :
    (f64IsZero (roundDyadic M e) = true) ↔ M = 0 := by
  constructor
  · intro h
    by_contra hM
    simp only [roundDyadic, if_neg hM] at h
    by_cases h53 : natBits M.natAbs M.natAbs ≤ 53
    · rw [if_pos h53] at h
      simp only [f64IsZero, beq_iff_eq] at h
      exact hM h
    · rw [if_neg h53] at h
      have hnn : M.natAbs ≠ 0 := fun h0 => hM (Int.natAbs_eq_zero.mp h0)
      have hlow : 2 ^ (natBits M.natAbs M.natAbs - 1) ≤ M.natAbs :=
        natBits_lower M.natAbs M.natAbs hnn le_rfl
      have hm52 : 4503599627370496 ≤ rne M.natAbs (2 ^ (natBits M.natAbs M.natAbs - 53)) := by
        apply rne_lower
        · exact (Nat.pos_pow_of_pos _ (by omega)).ne'
        · have hpow : (4503599627370496 : ℕ) * 2 ^ (natBits M.natAbs M.natAbs - 53) =
              2 ^ (natBits M.natAbs M.natAbs - 1) := by
            have h52 : (4503599627370496 : ℕ) = 2 ^ 52 := by norm_num
            rw [h52, ← pow_add]
            congr 1
            omega
          rw [hpow]
          exact hlow
      split at h
      · simp only [f64IsZero] at h
        exact absurd h (by simp)
      · simp only [f64IsZero, beq_iff_eq] at h
        split at h <;> omega
  · intro h
    subst h
    rfl

/-- Against a zero tolerance, `|v| <= 0` holds exactly for a zero
value. -/
theorem f64Le_abs_zero (v tol : F64) (htol : f64IsZero tol = true) :
    (f64Le (f64Abs v) tol = true) ↔ f64IsZero v = true := by
  cases tol with
  | inf b => simp [f64IsZero] at htol
  | finite t et =>
    simp only [f64IsZero, beq_iff_eq] at htol
    subst htol
    cases v with
    | inf b => simp [f64Abs, f64Le, f64IsZero]
    | finite m e =>
      simp only [f64Abs, f64Le, f64IsZero, beq_iff_eq, zero_mul, decide_eq_true_eq]
      constructor
      · intro h
        have hpow : (0 : ℤ) < ((2 ^ (e - min e et).toNat : ℕ) : ℤ) := by positivity
        have hnn : (0 : ℤ) ≤ |m| * ((2 ^ (e - min e et).toNat : ℕ) : ℤ) :=
          mul_nonneg (abs_nonneg m) (le_of_lt hpow)
        have h0 : |m| * ((2 ^ (e - min e et).toNat : ℕ) : ℤ) = 0 := le_antisymm h hnn
        rcases mul_eq_zero.mp h0 with h1 | h1
        · exact abs_eq_zero.mp h1
        · exact absurd h1 (ne_of_gt hpow)
      · intro h
        subst h
        simp

/-- With tolerance zero, the comparison the validator performs is
exact equality of the two parsed doubles. -/
theorem f64_tolZero_eq (mx ex mv ey : ℤ) (tol : F64) (htol : f64IsZero tol = true) :
    (f64Le (f64Abs (f64Sub (.finite mx ex) (.finite mv ey))) tol = true ↔
      f64Eq (.finite mx ex) (.finite mv ey) = true) := by
  rw [f64Le_abs_zero _ _ htol]
  simp only [f64Sub]
  rw [roundDyadic_zero_iff]
  simp only [f64Eq, decide_eq_true_eq]
  exact sub_eq_zero

/-- C5.  For a `NumericTolerance` rule, `ValidateAnswer` parses both
the stored answer and the candidate as 64-bit floats and returns
`valid` iff `|expected − got| ≤ tolerance` under binary64 arithmetic;
a parse failure of either string is a returned error, never
`valid = false`; and with tolerance 0 only exact equality of the
parsed doubles validates. -/
theorem C5_numeric_tolerance
    (rm : RegexOracle) (rule : ValidationRule) (received : String)
    (p : RuleParams) (x y : F64)
    (htype : rule.ruleType = "NumericTolerance")
    (hp : rule.params = some p) :
    (parseGoFloat rule.answer.data = some x → parseGoFloat received.data = some y →
      validateAnswer rm rule received =
        .ok (f64Le (f64Abs (f64Sub x y)) (p.tolerance.getD (.finite 0 0)))) ∧
    (parseGoFloat rule.answer.data = none →
      validateAnswer rm rule received = .error .badExpectedFloat) ∧
    (parseGoFloat rule.answer.data = some x → parseGoFloat received.data = none →
      validateAnswer rm rule received = .error .badReceivedFloat) ∧
    (∀ mx ex mv ey, f64IsZero (p.tolerance.getD (.finite 0 0)) = true →
      parseGoFloat rule.answer.data = some (.finite mx ex) →
      parseGoFloat received.data = some (.finite mv ey) →
      (validateAnswer rm rule received = .ok true ↔
        f64Eq (.finite mx ex) (.finite mv ey) = true)) := by
  have hdisp : validateAnswer rm rule received = validateNumericTolerance rule received := by
    simp [validateAnswer, htype]
  refine ⟨?_, ?_, ?_, ?_⟩
  · intro he hg
    rw [hdisp]
    simp [validateNumericTolerance, hp, he, hg]
  · intro he
    rw [hdisp]
    simp [validateNumericTolerance, hp, he]
  · intro he hg
    rw [hdisp]
    simp [validateNumericTolerance, hp, he, hg]
  · intro mx ex mv ey htol he hg
    rw [hdisp]
    simp only [validateNumericTolerance, hp, he, hg, Except.ok.injEq]
    exact f64_tolZero_eq mx ex mv ey _ htol

/-- Fixture: the C5 numeric rule, answer `"39.80"` with tolerance
`0.01` — the JSON number `0.01` decodes to the binary64
`5764607523034235 * 2^(-59)`, as the witness verifies by parsing the
same literal. -/
def c5Rule : ValidationRule :=
  { ruleType := "NumericTolerance",
    params := some { caseSensitive := none,
                     tolerance := some (.finite 5764607523034235 (-59)),
                     pattern := none },
    answer := "39.80" }

/-- Witness for C5, agreeing with the Go program: at answer `39.80`
and tolerance `0.01`, the candidate `39.81` is rejected, because
`|39.80 − 39.81|` computed in binary64 is
`0.010000000000005116… > 0.01`; the candidate `39.805` is accepted; a
non-numeric candidate is a hard error; and the tolerance fixture is
exactly the parse of `"0.01"`. -/
theorem C5_numeric_tolerance_witness :
    parseGoFloat "0.01".data = some (.finite 5764607523034235 (-59)) ∧
    validateAnswer rmNone c5Rule "39.81" = .ok false ∧
    validateAnswer rmNone c5Rule "39.805" = .ok true ∧
    validateAnswer rmNone c5Rule "oops" = .error .badReceivedFloat := by
  have h := C5_numeric_tolerance rmNone c5Rule "39.81"
    { caseSensitive := none, tolerance := some (.finite 5764607523034235 (-59)),
      pattern := none }
    (.finite 5601352036542054 (-47)) (.finite 5602759411425608 (-47)) rfl rfl
  refine ⟨by decide, ?_, by decide, ?_⟩
  · rw [h.1 (by decide) (by decide)]
    decide
  · exact (C5_numeric_tolerance rmNone c5Rule "oops"
      { caseSensitive := none, tolerance := some (.finite 5764607523034235 (-59)),
        pattern := none }
      (.finite 5601352036542054 (-47)) (.finite 0 0) rfl rfl).2.2.1
      (by decide) (by decide)

/-! ## Claim C10: no unsigned callback is ever transmitted -/

/-- C10.  When the configured Challenger-facing key id is not in the
secrets map, `CreateAuthHeader` returns the empty string and
`SendCallback` fails before building the HTTP request, so no request
(signed or not) is produced. -/
theorem C10_no_unsigned_callback
    (secrets : List (List Char × List Char)) (chalKeyID : List Char)
    (callbackURL : String) (cb : CallbackRequest) (nonce ts : List Char)
    (requestID signerAddress : String)
    (h : lookupSecret secrets chalKeyID = none) :
    (∀ method path body nonce' ts',
      createAuthHeader secrets method path body chalKeyID nonce' ts' = []) ∧
    sendCallbackRequest secrets chalKeyID callbackURL cb nonce ts requestID signerAddress =
      .error "failed to create auth header" := by
  constructor
  · intro method path body nonce' ts'
    simp [createAuthHeader, h]
  · simp [sendCallbackRequest, createAuthHeader, h]

/-- Witness for C10: an empty secrets map never signs. -/
theorem C10_no_unsigned_callback_witness :
    (∀ method path body nonce' ts',
      createAuthHeader [] method path body "chal-kid-1".data nonce' ts' = []) ∧
    sendCallbackRequest [] "chal-kid-1".data "http://localhost:8080/callback/ch_1" c1Cb
      "n-1".data "100".data "req_9" "0xSOLVER" =
      .error "failed to create auth header" :=
  C10_no_unsigned_callback [] "chal-kid-1".data "http://localhost:8080/callback/ch_1" c1Cb
    "n-1".data "100".data "req_9" "0xSOLVER" (by decide)

/-! ## Claim C4: the request-size limit -/

/-- C4 (amended).  Behind a parseable `Authorization` header, a body
of exactly 5 MiB passes the body-buffering stage, a body of
5 MiB + 1 bytes is rejected with HTTP 400 and code `READ_ERROR`, and
the middleware never emits any status other than 400 or 401 (in
particular never 413). -/
theorem C4_size_limit
    (secrets : List (List Char × List Char)) (skew now : Int)
    (seen : List (List Char)) (r : MWRequest) (a : AuthHeader)
    (hparse : parseAuthHeader r.authHeader = .ok a) :
    (r.body.length = 5 * 1024 * 1024 →
      middlewareChain secrets skew now seen r ≠ .reject 400 "READ_ERROR") ∧
    (r.body.length = 5 * 1024 * 1024 + 1 →
      middlewareChain secrets skew now seen r = .reject 400 "READ_ERROR") ∧
    (∀ r' : MWRequest, ∀ s : Nat, ∀ c : String,
      middlewareChain secrets skew now seen r' = .reject s c → s = 400 ∨ s = 401) := by
  have hne : r.authHeader ≠ [] := by
    intro h0
    rw [h0] at hparse
    simp [parseAuthHeader, rcsTag, List.isPrefixOf] at hparse
  refine ⟨?_, ?_, ?_⟩
  · intro hlen
    have hra : readAllLimited maxRequestSize r.body = some r.body := by
      simp [readAllLimited, maxRequestSize, hlen]
    simp only [middlewareChain, hmacAuthStage, if_neg hne, hparse, hra]
    split
    · simp
    · split <;> simp
  · intro hlen
    have hra : readAllLimited maxRequestSize r.body = none := by
      simp [readAllLimited, maxRequestSize, hlen]
    simp only [middlewareChain, hmacAuthStage, if_neg hne, hparse, hra]
  · intro r' s c h
    simp only [middlewareChain, hmacAuthStage] at h
    split at h
    · simp only [MWResult.reject.injEq] at h
      exact Or.inr h.1.symm
    · split at h
      · simp only [MWResult.reject.injEq] at h
        exact Or.inr h.1.symm
      · split at h
        · simp only [MWResult.reject.injEq] at h
          exact Or.inl h.1.symm
        · split at h
          · simp only [MWResult.reject.injEq] at h
            exact Or.inr h.1.symm
          · split at h
            · simp only [MWResult.reject.injEq] at h
              exact Or.inr h.1.symm
            · simp at h

/-- Fixture: a syntactically valid `Authorization` header value. -/
def c4AuthHeaderStr : List Char :=
  formatAuthHeader ⟨"k".data, "1".data, "n".data, "s".data⟩

/-- Fixture: a request whose body is exactly one byte over 5 MiB. -/
def c4ReqBig : MWRequest :=
  { method := "POST".data, path := "/callback/ch_1".data,
    authHeader := c4AuthHeaderStr, body := List.replicate (5 * 1024 * 1024 + 1) 0 }

/-- Fixture: a request whose body is exactly 5 MiB. -/
def c4ReqOk : MWRequest :=
  { method := "POST".data, path := "/callback/ch_1".data,
    authHeader := c4AuthHeaderStr, body := List.replicate (5 * 1024 * 1024) 0 }

/-- Counterexample to C4 as stated: the over-limit body is rejected
with status 400 (code `READ_ERROR`), not 413. -/
theorem C4_counterexample :
    middlewareChain [] 300 0 [] c4ReqBig = .reject 400 "READ_ERROR" ∧
    (400 : Nat) ≠ 413 := by
  constructor
  · have hne : c4ReqBig.authHeader ≠ [] := by decide
    have hp : parseAuthHeader c4ReqBig.authHeader =
        .ok ⟨"k".data, "1".data, "n".data, "s".data⟩ := by decide
    have hlen : c4ReqBig.body.length = 5 * 1024 * 1024 + 1 :=
      List.length_replicate _ _
    have hra : readAllLimited maxRequestSize c4ReqBig.body = none := by
      unfold readAllLimited
      rw [hlen]
      norm_num [maxRequestSize]
    rw [middlewareChain, hmacAuthStage, if_neg hne, hp, hra]
  · decide

/-- Witness for C4: the two boundary bodies at a concrete request. -/
theorem C4_size_limit_witness :
    middlewareChain [] 300 0 [] c4ReqOk ≠ .reject 400 "READ_ERROR" ∧
    middlewareChain [] 300 0 [] c4ReqBig = .reject 400 "READ_ERROR" :=
  ⟨(C4_size_limit [] 300 0 [] c4ReqOk ⟨"k".data, "1".data, "n".data, "s".data⟩
      (by decide)).1 (List.length_replicate _ _),
   (C4_size_limit [] 300 0 [] c4ReqBig ⟨"k".data, "1".data, "n".data, "s".data⟩
      (by decide)).2.1 (List.length_replicate _ _)⟩

/-! ## Claim C9: 404 versus 500 on the callback endpoint -/

/-- C9 (amended).  A missing `problem_id` surfaces from the store as
an error return, and the handler maps every `GetChallenge` failure —
missing row or genuine backend failure alike — to
`404 CHALLENGE_NOT_FOUND`; a store failure during the result insert
surfaces as `500 DB_ERROR`. -/
theorem C9_store_error_mapping
    (rm : RegexOracle) (now : Int) (st : ChallengerState) (req : CallbackHttpRequest)
    (cb : CallbackRequest)
    (hdec : req.decodedBody = some cb) (hmatch : cb.challengeID = req.urlChallengeID) :
    (st.getChallengeFault = false →
      st.challenges.find? (fun c => c.id == req.urlChallengeID) = none →
      (∃ msg, dbGetChallenge st.getChallengeFault st.challenges req.urlChallengeID =
        .error msg) ∧
      (handleCallback rm now st req).snd = .err 404 "CHALLENGE_NOT_FOUND") ∧
    (st.getChallengeFault = true →
      (handleCallback rm now st req).snd = .err 404 "CHALLENGE_NOT_FOUND") ∧
    (∀ challenge,
      dbGetChallenge st.getChallengeFault st.challenges req.urlChallengeID =
        .ok challenge →
      st.saveResultFault = true →
      (handleCallback rm now st req).snd = .err 500 "DB_ERROR") := by
  refine ⟨?_, ?_, ?_⟩
  · intro hf hfind
    have herr : dbGetChallenge st.getChallengeFault st.challenges req.urlChallengeID =
        .error "failed to get challenge: sql: no rows in result set" := by
      simp [dbGetChallenge, hf, hfind]
    exact ⟨⟨_, herr⟩, by simp [handleCallback, hdec, hmatch, herr]⟩
  · intro hf
    have herr : dbGetChallenge st.getChallengeFault st.challenges req.urlChallengeID =
        .error "failed to get challenge: backend failure" := by
      simp [dbGetChallenge, hf]
    simp [handleCallback, hdec, hmatch, herr]
  · intro challenge hch hsf
    simp [handleCallback, hdec, hmatch, hch, hsf]

/-- Fixture: a state with the challenge present whose challenge
`SELECT` hits a backend failure. -/
def c9FaultSt : ChallengerState :=
  { challenges := [c1Challenge], results := [], webhooks := [],
    getChallengeFault := true, saveResultFault := false }

/-- Fixture: a healthy state without the challenge. -/
def c9EmptySt : ChallengerState :=
  { challenges := [], results := [], webhooks := [],
    getChallengeFault := false, saveResultFault := false }

/-- Fixture: a state with the challenge present whose result `INSERT`
hits a backend failure. -/
def c9SaveFaultSt : ChallengerState :=
  { challenges := [c1Challenge], results := [], webhooks := [],
    getChallengeFault := false, saveResultFault := true }

/-- Counterexample to C9 as stated: a genuine store failure during the
challenge read (the challenge row exists; the backend fails) is
answered `404 CHALLENGE_NOT_FOUND`, not `500 DB_ERROR`. -/
theorem C9_counterexample :
    (handleCallback rmNone 0 c9FaultSt c1Req).snd = .err 404 "CHALLENGE_NOT_FOUND" ∧
    HandlerResponse.err 404 "CHALLENGE_NOT_FOUND" ≠ HandlerResponse.err 500 "DB_ERROR" := by
  constructor
  · decide
  · decide

/-- Witness for C9: the three mapping cases at concrete states. -/
theorem C9_store_error_mapping_witness :
    ((∃ msg, dbGetChallenge false [] "ch_1" = .error msg) ∧
      (handleCallback rmNone 0 c9EmptySt c1Req).snd = .err 404 "CHALLENGE_NOT_FOUND") ∧
    (handleCallback rmNone 0 c9FaultSt c1Req).snd = .err 404 "CHALLENGE_NOT_FOUND" ∧
    (handleCallback rmNone 0 c9SaveFaultSt c1Req).snd = .err 500 "DB_ERROR" :=
  ⟨(C9_store_error_mapping rmNone 0 c9EmptySt c1Req c1Cb (by decide) (by decide)).1
      rfl (by decide),
   (C9_store_error_mapping rmNone 0 c9FaultSt c1Req c1Cb (by decide) (by decide)).2.1 rfl,
   (C9_store_error_mapping rmNone 0 c9SaveFaultSt c1Req c1Cb (by decide) (by decide)).2.2
      c1Challenge (by rfl) rfl⟩

/-! ## Claim C7: the solver-identity header -/

/-- The four header names appear nowhere else; `formatAuthHeader`
always starts with the scheme literal, so it is never empty. -/
theorem formatAuthHeader_ne_nil (a : AuthHeader) : formatAuthHeader a ≠ [] := by
  simp [formatAuthHeader, rcsTag]

/-- With a known key id, `SendCallback` builds exactly the four
headers of the source, in order. -/
theorem sendCallbackRequest_eq_ok (secrets : List (List Char × List Char))
    (chalKeyID : List Char) (callbackURL : String) (cb : CallbackRequest)
    (nonce ts : List Char) (requestID signerAddress : String) (sec : List Char)
    (h : lookupSecret secrets chalKeyID = some sec) :
    sendCallbackRequest secrets chalKeyID callbackURL cb nonce ts requestID
      signerAddress =
      .ok { url := callbackURL
            headers := [("Content-Type", "application/json"),
                        ("Authorization", String.mk (formatAuthHeader
                          ⟨chalKeyID, ts, nonce,
                           computeSignature "POST".data
                             ("/callback/".data ++ cb.challengeID.data)
                             (charsToBytes (marshalCallbackRequest cb).data) ts nonce sec⟩)),
                        ("X-Request-ID", requestID),
                        ("X-Solver-Address", signerAddress)]
            body := charsToBytes (marshalCallbackRequest cb).data } := by
  simp only [sendCallbackRequest, createAuthHeader, h]
  rw [if_neg (formatAuthHeader_ne_nil _)]

/-- Fixture: the C7 secrets map. -/
def c7Secrets : List (List Char × List Char) := [("chal-kid-1".data, "s3cret".data)]

/-- Counterexample to C7 as stated: the callback delivery carries no
`X-Solver-Identity` header (the four header names are exactly those
below), and the receiver's identity extraction ignores an
`X-Solver-Identity` header, falling back to the peer placeholder. -/
theorem C7_counterexample :
    (sendCallbackRequest c7Secrets "chal-kid-1".data
        "http://localhost:8080/callback/ch_1" c1Cb "n-1".data "100".data
        "req_9" "0xSOLVER").map (fun r => r.headers.map Prod.fst) =
      .ok ["Content-Type", "Authorization", "X-Request-ID", "X-Solver-Address"] ∧
    "X-Solver-Identity" ∉
      ["Content-Type", "Authorization", "X-Request-ID", "X-Solver-Address"] ∧
    extractSolverAddress [("X-Solver-Identity", "0xSOLVER")] "1.2.3.4:5" ≠ "0xSOLVER" := by
  refine ⟨?_, by decide, by decide⟩
  rw [sendCallbackRequest_eq_ok c7Secrets "chal-kid-1".data
    "http://localhost:8080/callback/ch_1" c1Cb "n-1".data "100".data
    "req_9" "0xSOLVER" "s3cret".data (by decide)]
  rfl

/-- C7 (amended).  The sender attaches the signer's address under the
`X-Solver-Address` request header on every callback it builds; the
receiver reads `X-Solver-Address` into the stored result, falling back
to a placeholder derived from the peer address when the header is
absent. -/
theorem C7_solver_address_header (secrets : List (List Char × List Char))
    (chalKeyID : List Char) (callbackURL : String) (cb : CallbackRequest)
    (nonce ts : List Char) (requestID signerAddress : String) (sec : List Char)
    (h : lookupSecret secrets chalKeyID = some sec) :
    (∀ out, sendCallbackRequest secrets chalKeyID callbackURL cb nonce ts requestID
        signerAddress = .ok out → ("X-Solver-Address", signerAddress) ∈ out.headers) ∧
    (∀ headers remoteAddr v, headerGet headers "X-Solver-Address" = v → v ≠ "" →
      extractSolverAddress headers remoteAddr = v) ∧
    (∀ headers remoteAddr, headerGet headers "X-Solver-Address" = "" →
      extractSolverAddress headers remoteAddr =
        "0x" ++ fmt040xTrunc remoteAddr.length) ∧
    (∀ rm now challenge req cb',
      (callbackResult rm now challenge req cb').solverAddress =
        extractSolverAddress req.headers req.remoteAddr) := by
  refine ⟨?_, ?_, ?_, ?_⟩
  · intro out hout
    rw [sendCallbackRequest_eq_ok secrets chalKeyID callbackURL cb nonce ts requestID
      signerAddress sec h] at hout
    cases hout
    simp
  · intro headers remoteAddr v hv hne
    rw [extractSolverAddress, hv, if_neg hne]
  · intro headers remoteAddr hv
    rw [extractSolverAddress, hv, if_pos rfl]
  · intro rm now challenge req cb'
    rfl

/-- Witness for C7: identity extraction at concrete headers. -/
theorem C7_solver_address_header_witness :
    extractSolverAddress [("X-Solver-Address", "0xSOLVER")] "127.0.0.1:9" = "0xSOLVER" ∧
    extractSolverAddress [("Content-Type", "application/json")] "1.2.3.4:5" =
      "0x" ++ fmt040xTrunc ("1.2.3.4:5" : String).length :=
  ⟨(C7_solver_address_header c7Secrets "chal-kid-1".data "u" c1Cb "n".data "1".data
      "r" "0xSOLVER" "s3cret".data (by decide)).2.1 _ _ _ (by decide) (by decide),
   (C7_solver_address_header c7Secrets "chal-kid-1".data "u" c1Cb "n".data "1".data
      "r" "0xSOLVER" "s3cret".data (by decide)).2.2.1 _ _ (by decide)⟩

/-! ## Claim C8: the webhook audit record -/

/-- C8 (amended).  On a non-duplicate accepted callback the handler
appends exactly one audit record, whose body-hash field is the
lowercase hex SHA-256 of the re-serialized decoded payload
(`json.Marshal(callbackReq)`), together with the serialized request
headers; a duplicate callback appends nothing. -/
theorem C8_audit_on_first_acceptance
    (rm : RegexOracle) (now : Int) (st : ChallengerState) (req : CallbackHttpRequest)
    (cb : CallbackRequest) (challenge : Challenge)
    (hdec : req.decodedBody = some cb) (hmatch : cb.challengeID = req.urlChallengeID)
    (hch : dbGetChallenge st.getChallengeFault st.challenges req.urlChallengeID =
      .ok challenge)
    (hsf : st.saveResultFault = false) :
    ((saveResultWithDuplicateCheck st.results (callbackResult rm now challenge req cb)).fst
        = true →
      (handleCallback rm now st req).fst.webhooks =
        st.webhooks ++ [callbackAudit now req cb]) ∧
    ((saveResultWithDuplicateCheck st.results (callbackResult rm now challenge req cb)).fst
        = false →
      (handleCallback rm now st req).fst.webhooks = st.webhooks) ∧
    (callbackAudit now req cb).bodyHash =
      String.mk (bytesToHexChars (sha256 (charsToBytes (marshalCallbackRequest cb).data))) ∧
    (callbackAudit now req cb).headers = serializeHeaders req.headers := by
  refine ⟨?_, ?_, rfl, rfl⟩
  · intro hins
    simp [handleCallback, hdec, hmatch, hch, hsf, hins, saveWebhookAudit]
  · intro hins
    simp [handleCallback, hdec, hmatch, hch, hsf, hins]

/-- Fixture: the C8 decoded callback payload. -/
def c8Cb : CallbackRequest :=
  { apiVersion := "v2.1", challengeID := "ch_1", solverJobID := "j1",
    status := "failed", answer := "", errorCode := "", errorMessage := "",
    metadata := none, metaComputeTimeMs := none }

/-- Fixture: the C8 incoming request.  Its raw body carries extra
whitespace, which Go's JSON decoder accepts and whose re-marshalled
form is the compact rendering — different bytes. -/
def c8Req : CallbackHttpRequest :=
  { urlChallengeID := "ch_1", headers := [("X-Request-ID", "req_1")],
    rawBody := "\x7b \"api_version\": \"v2.1\", \"challenge_id\": \"ch_1\", \"solver_job_id\": \"j1\", \"status\": \"failed\" \x7d",
    decodedBody := some c8Cb, remoteAddr := "127.0.0.1:50000" }

/-- Fixture: the healthy C8 state with the challenge present. -/
def c8St : ChallengerState :=
  { challenges := [c1Challenge], results := [], webhooks := [],
    getChallengeFault := false, saveResultFault := false }

/-- Fixture: the C8 state that already holds the row under the
callback's key. -/
def c8DupSt : ChallengerState :=
  { challenges := [c1Challenge],
    results := [callbackResult rmNone 0 c1Challenge c8Req c8Cb], webhooks := [],
    getChallengeFault := false, saveResultFault := false }

/-- Counterexample to C8 as stated: the audit record's body hash is
the SHA-256 of the re-marshalled payload, which differs from the
SHA-256 of the raw request body as received. -/
theorem C8_body_hash_counterexample :
    ((handleCallback rmNone 0 c8St c8Req).fst.webhooks.map (fun a => a.bodyHash)) =
      [String.mk (bytesToHexChars (sha256 (charsToBytes (marshalCallbackRequest c8Cb).data)))] ∧
    ((handleCallback rmNone 0 c8St c8Req).fst.webhooks.map (fun a => a.bodyHash)) ≠
      [String.mk (bytesToHexChars (sha256 (charsToBytes c8Req.rawBody.data)))] ∧
    c8Req.rawBody ≠ marshalCallbackRequest c8Cb := by
  refine ⟨rfl, ?_, by decide⟩
  decide

/-- Witness for C8: the first acceptance appends the one audit record;
the duplicate appends none. -/
theorem C8_audit_on_first_acceptance_witness :
    (handleCallback rmNone 0 c8St c8Req).fst.webhooks =
      c8St.webhooks ++ [callbackAudit 0 c8Req c8Cb] ∧
    (handleCallback rmNone 0 c8DupSt c8Req).fst.webhooks = c8DupSt.webhooks :=
  ⟨(C8_audit_on_first_acceptance rmNone 0 c8St c8Req c8Cb c1Challenge (by decide)
      (by decide) (by rfl) (by decide)).1 (by decide),
   (C8_audit_on_first_acceptance rmNone 0 c8DupSt c8Req c8Cb c1Challenge (by decide)
      (by decide) (by rfl) (by decide)).2.1 (by decide)⟩

/-! ## Claim C3: the callback retry policy -/

/-- The loop makes at most `fuel` attempts. -/
theorem retryLoop_attempts_le (outcomes : Nat → AttemptOutcome) (us : Nat → ℚ) :
    ∀ fuel attempt, (retryLoop outcomes us attempt fuel).attemptsMade ≤ fuel := by
  intro fuel
  induction fuel with
  | zero => intro attempt; simp [retryLoop]
  | succ n ih =>
    intro attempt
    simp only [retryLoop]
    split
    · simp
    · split
      · simp
      · split
        · simp
        · simpa using Nat.succ_le_succ (ih (attempt + 1))

/-- With at least one loop iteration, at least one attempt is made. -/
theorem retryLoop_attempts_pos (outcomes : Nat → AttemptOutcome) (us : Nat → ℚ) :
    ∀ fuel attempt, 1 ≤ fuel → 1 ≤ (retryLoop outcomes us attempt fuel).attemptsMade := by
  intro fuel
  cases fuel with
  | zero => intro attempt h; omega
  | succ n =>
    intro attempt _
    simp only [retryLoop]
    split
    · simp
    · split
      · simp
      · split
        · simp
        · simp

/-- The run depends only on the outcomes of the attempts the loop may
probe. -/
theorem retryLoop_congr (us : Nat → ℚ) :
    ∀ fuel attempt (o o' : Nat → AttemptOutcome),
      (∀ k, attempt ≤ k → k < attempt + fuel → o' k = o k) →
      retryLoop o' us attempt fuel = retryLoop o us attempt fuel := by
  intro fuel
  induction fuel with
  | zero => intro attempt o o' h; simp [retryLoop]
  | succ n ih =>
    intro attempt o o' h
    have h0 : o' attempt = o attempt := h attempt le_rfl (by omega)
    by_cases h1 : isSuccessStatus (o attempt) = true
    · simp [retryLoop, h0, h1]
    · by_cases h2 : goShouldRetry (o attempt) = true
      · by_cases h3 : n = 0
        · simp [retryLoop, h0, h1, h2, h3]
        · have hrec := ih (attempt + 1) o o' (fun k hk1 hk2 => h k (by omega) (by omega))
          simp [retryLoop, h0, h1, h2, h3, hrec]
      · simp [retryLoop, h0, h1, h2]

/-- The run delivers iff some probed attempt within the budget gets a
2xx and every earlier attempt failed retryably. -/
theorem retryLoop_delivered_iff (o : Nat → AttemptOutcome) (us : Nat → ℚ) :
    ∀ fuel attempt,
      ((retryLoop o us attempt fuel).outcome = .delivered ↔
        ∃ k, k < fuel ∧ isSuccessStatus (o (attempt + k)) = true ∧
          ∀ j, j < k → isSuccessStatus (o (attempt + j)) = false ∧
            goShouldRetry (o (attempt + j)) = true) := by
  intro fuel
  induction fuel with
  | zero => intro attempt; simp [retryLoop]
  | succ n ih =>
    intro attempt
    by_cases h1 : isSuccessStatus (o attempt) = true
    · simp only [retryLoop, h1, if_true]
      constructor
      · intro _
        exact ⟨0, by omega, by simpa using h1, by omega⟩
      · intro _
        trivial
    · by_cases h2 : goShouldRetry (o attempt) = true
      · by_cases h3 : n = 0
        · subst h3
          simp only [retryLoop, h1, h2, not_true, if_false, if_true]
          constructor
          · intro hc
            simp at hc
          · rintro ⟨k, hk, hsucc, hprev⟩
            interval_cases k
            exact absurd (by simpa using hsucc) h1
        · have hstep : retryLoop o us attempt (n + 1) =
              ⟨(retryLoop o us (attempt + 1) n).attemptsMade + 1,
               calculateBackoffDelay attempt (us attempt) ::
                 (retryLoop o us (attempt + 1) n).sleeps,
               (retryLoop o us (attempt + 1) n).outcome⟩ := by
            simp [retryLoop, h1, h2, h3]
          rw [hstep]
          dsimp only
          rw [ih (attempt + 1)]
          constructor
          · rintro ⟨k, hk, hsucc, hprev⟩
            refine ⟨k + 1, by omega, ?_, ?_⟩
            · rw [show attempt + (k + 1) = attempt + 1 + k by omega]
              exact hsucc
            · intro j hj
              cases j with
              | zero =>
                refine ⟨by simpa using h1, by simpa using h2⟩
              | succ j' =>
                have := hprev j' (by omega)
                rw [show attempt + (j' + 1) = attempt + 1 + j' by omega]
                exact this
          · rintro ⟨k, hk, hsucc, hprev⟩
            cases k with
            | zero =>
              exact absurd (by simpa using hsucc) h1
            | succ k' =>
              refine ⟨k', by omega, ?_, ?_⟩
              · rw [show attempt + 1 + k' = attempt + (k' + 1) by omega]
                exact hsucc
              · intro j hj
                have := hprev (j + 1) (by omega)
                rw [show attempt + 1 + j = attempt + (j + 1) by omega]
                exact this
      · simp only [retryLoop, h1, h2, not_false_iff, if_false, if_true]
        constructor
        · intro hc
          simp at hc
        · rintro ⟨k, hk, hsucc, hprev⟩
          cases k with
          | zero => exact absurd (by simpa using hsucc) h1
          | succ k' => exact absurd (hprev 0 (by omega)).2 (by simpa using h2)

/-- The sleeps of a run are exactly the backoff delays of its
non-final attempts. -/
theorem retryLoop_sleeps (o : Nat → AttemptOutcome) (us : Nat → ℚ) :
    ∀ fuel attempt,
      (retryLoop o us attempt fuel).sleeps =
        (List.range ((retryLoop o us attempt fuel).attemptsMade - 1)).map
          (fun k => calculateBackoffDelay (attempt + k) (us (attempt + k))) := by
  intro fuel
  induction fuel with
  | zero => intro attempt; simp [retryLoop]
  | succ n ih =>
    intro attempt
    by_cases h1 : isSuccessStatus (o attempt) = true
    · simp [retryLoop, h1]
    · by_cases h2 : goShouldRetry (o attempt) = true
      · by_cases h3 : n = 0
        · simp [retryLoop, h1, h2, h3]
        · have hstep : retryLoop o us attempt (n + 1) =
              ⟨(retryLoop o us (attempt + 1) n).attemptsMade + 1,
               calculateBackoffDelay attempt (us attempt) ::
                 (retryLoop o us (attempt + 1) n).sleeps,
               (retryLoop o us (attempt + 1) n).outcome⟩ := by
            simp [retryLoop, h1, h2, h3]
          have hpos : 1 ≤ (retryLoop o us (attempt + 1) n).attemptsMade :=
            retryLoop_attempts_pos o us n (attempt + 1) (by omega)
          rw [hstep]
          dsimp only
          rw [ih (attempt + 1)]
          rw [show (retryLoop o us (attempt + 1) n).attemptsMade + 1 - 1 =
            ((retryLoop o us (attempt + 1) n).attemptsMade - 1) + 1 by omega]
          rw [List.range_succ_eq_map]
          simp only [List.map_cons, List.map_map]
          have hsh : ∀ a : Nat, attempt + 1 + a = attempt + (a + 1) := fun a => by omega
          simp [List.cons.injEq, List.map_inj_left, Function.comp_apply, hsh]
      · simp [retryLoop, h1, h2]

/-- The retryability predicate exactly as the claim states it: a
transport error, status 429, or a status in 500–599. -/
def claimedRetryable (o : AttemptOutcome) : Prop :=
  o = none ∨ o = some 429 ∨ ∃ s : Int, o = some s ∧ 500 ≤ s ∧ s ≤ 599

/-- C3 (amended).  The sender makes at most 6 attempts and never
probes attempt 7; an attempt is retryable iff it was a transport
error, a 429, or any status of at least 500; the run delivers iff
some attempt within the budget is a 2xx preceded only by retryable
failures; between attempts it sleeps the capped exponential backoff
`min(30 s, 500 ms·2^(k−1))` scaled by the jitter factor, which lies
in `[0.85, 1.15]`; a failed run leaves the work item `failed` with
`attempt_count = 6`, a delivered run deletes it. -/
theorem C3_retry_policy
    (outcomes : Nat → AttemptOutcome) (us : Nat → ℚ)
    (hus : ∀ k, 0 ≤ us k ∧ us k < 1) (rows : List PendingRow) (id : String) :
    (sendCallbackWithRetry outcomes us).attemptsMade ≤ 6 ∧
    (∀ outcomes' : Nat → AttemptOutcome, (∀ k, k < 6 → outcomes' k = outcomes k) →
      sendCallbackWithRetry outcomes' us = sendCallbackWithRetry outcomes us) ∧
    (∀ o : AttemptOutcome, goShouldRetry o = true ↔
      (o = none ∨ o = some 429 ∨ ∃ s : Int, o = some s ∧ 500 ≤ s)) ∧
    (∀ o : AttemptOutcome, isSuccessStatus o = true ↔
      ∃ s : Int, o = some s ∧ 200 ≤ s ∧ s < 300) ∧
    ((sendCallbackWithRetry outcomes us).outcome = .delivered ↔
      ∃ k, k < 6 ∧ isSuccessStatus (outcomes k) = true ∧
        ∀ j, j < k → isSuccessStatus (outcomes j) = false ∧
          goShouldRetry (outcomes j) = true) ∧
    ((sendCallbackWithRetry outcomes us).sleeps =
      (List.range ((sendCallbackWithRetry outcomes us).attemptsMade - 1)).map
        (fun k => backoffBaseNs k * jitterFactor (us k))) ∧
    (∀ k : Nat, backoffBaseNs k = min ((30 : ℚ) * 10 ^ 9) ((1 : ℚ)/2 * 10 ^ 9 * 2 ^ k)) ∧
    (∀ k, (85 : ℚ)/100 ≤ jitterFactor (us k) ∧ jitterFactor (us k) ≤ (115 : ℚ)/100) ∧
    ((sendCallbackWithRetry outcomes us).outcome ≠ .delivered →
      processChallengeFinish rows id (sendCallbackWithRetry outcomes us) =
        updateChallengeStatus rows id "failed" 6) ∧
    ((sendCallbackWithRetry outcomes us).outcome = .delivered →
      processChallengeFinish rows id (sendCallbackWithRetry outcomes us) =
        deleteChallenge rows id) := by
  refine ⟨?_, ?_, ?_, ?_, ?_, ?_, ?_, ?_, ?_, ?_⟩
  · exact retryLoop_attempts_le outcomes us 6 0
  · intro outcomes' h
    exact retryLoop_congr us 6 0 outcomes outcomes' (fun k hk1 hk2 => h k (by omega))
  · intro o
    cases o with
    | none => simp [goShouldRetry]
    | some s =>
      simp only [goShouldRetry]
      split_ifs with h1 h2 h3
      · subst h1
        simp
      · constructor
        · intro _
          exact Or.inr (Or.inr ⟨s, rfl, h2⟩)
        · intro _
          rfl
      · constructor
        · intro hc
          simp at hc
        · rintro (h | h | ⟨s', hs', h5⟩)
          · simp at h
          · injection h with h'
            omega
          · injection hs' with h'
            omega
      · constructor
        · intro hc
          simp at hc
        · rintro (h | h | ⟨s', hs', h5⟩)
          · simp at h
          · injection h with h'
            omega
          · injection hs' with h'
            omega
  · intro o
    cases o with
    | none => simp [isSuccessStatus]
    | some s =>
      simp only [isSuccessStatus, Bool.and_eq_true, decide_eq_true_eq]
      constructor
      · rintro ⟨hl, hr⟩
        exact ⟨s, rfl, hl, hr⟩
      · rintro ⟨s', hs', hl, hr⟩
        cases hs'
        exact ⟨hl, hr⟩
  · have h := retryLoop_delivered_iff outcomes us 6 0
    simpa using h
  · have h := retryLoop_sleeps outcomes us 6 0
    simpa [calculateBackoffDelay] using h
  · intro k
    norm_num [backoffBaseNs, maxDelayNs, baseDelayNs]
  · intro k
    have h0 := (hus k).1
    have h1 := (hus k).2
    constructor
    · simp only [jitterFactor, jitterLo, jitterHi]
      nlinarith
    · simp only [jitterFactor, jitterLo, jitterHi]
      nlinarith
  · intro h
    simp [processChallengeFinish, h, maxRetryAttempts]
  · intro h
    simp [processChallengeFinish, h]

/-- Counterexample to C3 as stated: status 600 is outside the claim's
retryable set (not a transport error, not 429, not in 500–599), yet
`shouldRetry` retries it and the run burns all 6 attempts instead of
stopping terminally after the first. -/
theorem C3_counterexample :
    goShouldRetry (some 600) = true ∧
    ¬ claimedRetryable (some 600) ∧
    (sendCallbackWithRetry (fun _ => some 600) (fun _ => 0)).attemptsMade = 6 ∧
    (sendCallbackWithRetry (fun _ => some 600) (fun _ => 0)).outcome = .exhausted := by
  refine ⟨by decide, ?_, by decide, by decide⟩
  rintro (h | h | ⟨s, hs, h5, h9⟩)
  · exact absurd h (by decide)
  · exact absurd h (by decide)
  · injection hs with h'
    omega

/-- Fixture: attempt outcomes that fail 503 twice and then succeed. -/
def c3Outcomes : Nat → AttemptOutcome := fun k => if k < 2 then some 503 else some 200

/-- Fixture: a constant jitter draw. -/
def c3Us : Nat → ℚ := fun _ => 1/2

/-- Witness for C3: the 503-503-200 run stays within the budget and
delivers. -/
theorem C3_retry_policy_witness :
    (sendCallbackWithRetry c3Outcomes c3Us).attemptsMade ≤ 6 ∧
    (sendCallbackWithRetry c3Outcomes c3Us).outcome = .delivered :=
  ⟨(C3_retry_policy c3Outcomes c3Us (fun k => ⟨by norm_num [c3Us], by norm_num [c3Us]⟩)
      [] "ch_1").1,
   (C3_retry_policy c3Outcomes c3Us (fun k => ⟨by norm_num [c3Us], by norm_num [c3Us]⟩)
      [] "ch_1").2.2.2.2.1.mpr ⟨2, by omega, by decide, by decide⟩⟩

/-! ## Claim C6: auth-header parse/format round trip -/

/-- A field value (or field key) the round trip can preserve: present
(non-empty), free of `,` and `=`, and not starting or ending in
whitespace the parser trims. -/
def goodVal (v : List Char) : Prop :=
  v ≠ [] ∧ (∀ c ∈ v, c ≠ ',' ∧ c ≠ '=') ∧
    (∀ c, v.head? = some c → isGoSpace c = false) ∧
    (∀ c, v.getLast? = some c → isGoSpace c = false)

instance (v : List Char) : Decidable (goodVal v) := by
  unfold goodVal
  infer_instance

/-- All-whitespace padding. -/
def allSpace (w : List Char) : Prop := ∀ c ∈ w, isGoSpace c = true

instance (w : List Char) : Decidable (allSpace w) := by
  unfold allSpace
  infer_instance

/-- The four key/value pairs of a header, in the order
`CreateAuthHeader` renders them. -/
def basePairs (a : AuthHeader) : List (List Char × List Char) :=
  [("keyId".data, a.keyID), ("ts".data, a.timestamp),
   ("nonce".data, a.nonce), ("sig".data, a.signature)]

/-- Join fragments with single commas (inverse of `strings.Split`). -/
def joinComma : List (List Char) → List Char
  | [] => []
  | [x] => x
  | x :: xs => x ++ ',' :: joinComma xs

/-- One rendered `key=value` fragment padded with whitespace around
the key and the value. -/
def renderPair (w1 w2 w3 w4 : List Char) (p : List Char × List Char) : List Char :=
  (w1 ++ p.fst ++ w2) ++ '=' :: (w3 ++ p.snd ++ w4)

/-- A header rendering with the fields in the order of `l` and
whitespace padding around `=` and `,`. -/
def renderPairsPad (w1 w2 w3 w4 : List Char) (l : List (List Char × List Char)) :
    List Char :=
  rcsTag ++ ' ' :: joinComma (l.map (renderPair w1 w2 w3 w4))

/-- The assignment a parsed `(key, value)` pair makes, with the same
dispatch as the parser's loop body. -/
def applyPair (a : AuthHeader) (p : List Char × List Char) : AuthHeader :=
  if p.fst = "keyId".data then { a with keyID := p.snd }
  else if p.fst = "ts".data then { a with timestamp := p.snd }
  else if p.fst = "nonce".data then { a with nonce := p.snd }
  else if p.fst = "sig".data then { a with signature := p.snd }
  else a

/-- Whitespace is neither the comma nor the equals separator. -/
theorem goSpace_ne_sep (c : Char) (h : isGoSpace c = true) : c ≠ ',' ∧ c ≠ '=' := by
  constructor
  · rintro rfl
    simp [isGoSpace] at h
  · rintro rfl
    simp [isGoSpace] at h

/-- An all-true prefix is dropped. -/
theorem dropWhile_append_all (p : Char → Bool) (l1 l2 : List Char)
    (h : ∀ c ∈ l1, p c = true) :
    (l1 ++ l2).dropWhile p = l2.dropWhile p := by
  induction l1 with
  | nil => rfl
  | cons c tl ih =>
    simp only [List.cons_append, List.dropWhile_cons, h c (by simp)]
    exact ih (fun x hx => h x (by simp [hx]))

/-- `dropWhile` keeps a list whose head fails the predicate. -/
theorem dropWhile_head_not (p : Char → Bool) (l : List Char)
    (h : ∀ c, l.head? = some c → p c = false) :
    l.dropWhile p = l := by
  cases l with
  | nil => rfl
  | cons c tl =>
    simp only [List.dropWhile_cons, h c rfl]
    simp

/-- Trimming strips exactly the whitespace padding around a value with
clean edges. -/
theorem trimSpace_pad (w1 v w2 : List Char) (hw1 : allSpace w1) (hw2 : allSpace w2)
    (hne : v ≠ [])
    (hv1 : ∀ c, v.head? = some c → isGoSpace c = false)
    (hv2 : ∀ c, v.getLast? = some c → isGoSpace c = false) :
    trimSpace (w1 ++ v ++ w2) = v := by
  unfold trimSpace
  rw [List.append_assoc, dropWhile_append_all _ w1 _ hw1]
  have h1 : (v ++ w2).dropWhile isGoSpace = v ++ w2 := by
    apply dropWhile_head_not
    intro c hc
    cases v with
    | nil => exact absurd rfl hne
    | cons c0 tl =>
      simp only [List.cons_append, List.head?_cons, Option.some.injEq] at hc
      subst hc
      exact hv1 c0 rfl
  rw [h1, List.reverse_append, dropWhile_append_all _ w2.reverse _ (by
    intro c hcm
    exact hw2 c (by simpa using hcm))]
  have h2 : v.reverse.dropWhile isGoSpace = v.reverse := by
    apply dropWhile_head_not
    intro c hc
    rw [List.head?_reverse] at hc
    exact hv2 c hc
  rw [h2, List.reverse_reverse]

/-- Splitting after a comma-free fragment. -/
theorem splitOnComma_append_cons (xs ys : List Char) (h : ∀ c ∈ xs, c ≠ ',') :
    splitOnComma (xs ++ ',' :: ys) = xs :: splitOnComma ys := by
  induction xs with
  | nil => simp [splitOnComma]
  | cons c tl ih =>
    have hc : c ≠ ',' := h c (by simp)
    simp only [List.cons_append, splitOnComma, if_neg hc, List.append_eq]
    rw [ih (fun x hx => h x (by simp [hx]))]

/-- A comma-free string splits to itself. -/
theorem splitOnComma_no_comma (xs : List Char) (h : ∀ c ∈ xs, c ≠ ',') :
    splitOnComma xs = [xs] := by
  induction xs with
  | nil => rfl
  | cons c tl ih =>
    have hc : c ≠ ',' := h c (by simp)
    simp only [splitOnComma, if_neg hc]
    rw [ih (fun x hx => h x (by simp [hx]))]

/-- `Split` is a left inverse of the comma join on comma-free
fragments. -/
theorem splitOnComma_joinComma (pieces : List (List Char)) (hne : pieces ≠ [])
    (h : ∀ piece ∈ pieces, ∀ c ∈ piece, c ≠ ',') :
    splitOnComma (joinComma pieces) = pieces := by
  induction pieces with
  | nil => exact absurd rfl hne
  | cons x xs ih =>
    cases xs with
    | nil => exact splitOnComma_no_comma x (h x (by simp))
    | cons y ys =>
      show splitOnComma (x ++ ',' :: joinComma (y :: ys)) = _
      rw [splitOnComma_append_cons x _ (h x (by simp))]
      rw [ih (by simp) (fun p hp c hc => h p (by simp [hp]) c hc)]

/-- `SplitN(s, "=", 2)` after an equals-free left part. -/
theorem splitN2Eq_append (a b : List Char) (h : ∀ c ∈ a, c ≠ '=') :
    splitN2Eq (a ++ '=' :: b) = some (a, b) := by
  induction a with
  | nil => simp [splitN2Eq]
  | cons c tl ih =>
    have hc : c ≠ '=' := h c (by simp)
    simp only [List.cons_append, splitN2Eq, if_neg hc, List.append_eq]
    rw [ih (fun x hx => h x (by simp [hx]))]

/-- One padded fragment parses to the assignment of its pair. -/
theorem setAuthField_renderPair (e : AuthHeader) (w1 w2 w3 w4 key v : List Char)
    (hw1 : allSpace w1) (hw2 : allSpace w2) (hw3 : allSpace w3) (hw4 : allSpace w4)
    (hkey : goodVal key) (hv : goodVal v) :
    setAuthField e (renderPair w1 w2 w3 w4 (key, v)) = applyPair e (key, v) := by
  have hsplit : splitN2Eq ((w1 ++ key ++ w2) ++ '=' :: (w3 ++ v ++ w4)) =
      some (w1 ++ key ++ w2, w3 ++ v ++ w4) := by
    apply splitN2Eq_append
    intro c hc
    rcases List.mem_append.mp hc with hc' | hc'
    · rcases List.mem_append.mp hc' with hc'' | hc''
      · exact (goSpace_ne_sep c (hw1 c hc'')).2
      · exact (hkey.2.1 c hc'').2
    · exact (goSpace_ne_sep c (hw2 c hc')).2
  have htk : trimSpace (w1 ++ key ++ w2) = key :=
    trimSpace_pad _ _ _ hw1 hw2 hkey.1 hkey.2.2.1 hkey.2.2.2
  have htv : trimSpace (w3 ++ v ++ w4) = v :=
    trimSpace_pad _ _ _ hw3 hw4 hv.1 hv.2.2.1 hv.2.2.2
  simp only [renderPair, setAuthField, hsplit, htk, htv, applyPair]

/-- The key-field selector of the parser's dispatch. -/
def selKeyID (p : List Char × List Char) : Option (List Char) :=
  if p.fst = "keyId".data then some p.snd else none

/-- The timestamp-field selector. -/
def selTs (p : List Char × List Char) : Option (List Char) :=
  if p.fst = "ts".data then some p.snd else none

/-- The nonce-field selector. -/
def selNonce (p : List Char × List Char) : Option (List Char) :=
  if p.fst = "nonce".data then some p.snd else none

/-- The signature-field selector. -/
def selSig (p : List Char × List Char) : Option (List Char) :=
  if p.fst = "sig".data then some p.snd else none

/-- The folded key id is the last `keyId` assignment. -/
theorem foldl_applyPair_keyID :
    ∀ (l : List (List Char × List Char)) (e : AuthHeader),
      (l.foldl applyPair e).keyID = (l.filterMap selKeyID).getLastD e.keyID := by
  intro l
  induction l with
  | nil => intro e; rfl
  | cons p tl ih =>
    intro e
    rw [List.foldl_cons, ih]
    by_cases h : p.fst = "keyId".data
    · have h1 : selKeyID p = some p.snd := by simp [selKeyID, h]
      have h2 : (applyPair e p).keyID = p.snd := by simp [applyPair, h]
      rw [List.filterMap_cons_some h1, List.getLastD_cons, h2]
    · have h1 : selKeyID p = none := by simp [selKeyID, h]
      have h2 : (applyPair e p).keyID = e.keyID := by
        simp only [applyPair, if_neg h]
        split_ifs <;> rfl
      simp [List.filterMap_cons, h1, h2]

/-- The folded timestamp is the last `ts` assignment. -/
theorem foldl_applyPair_ts :
    ∀ (l : List (List Char × List Char)) (e : AuthHeader),
      (l.foldl applyPair e).timestamp = (l.filterMap selTs).getLastD e.timestamp := by
  intro l
  induction l with
  | nil => intro e; rfl
  | cons p tl ih =>
    intro e
    rw [List.foldl_cons, ih]
    by_cases h : p.fst = "ts".data
    · have h1 : selTs p = some p.snd := by simp [selTs, h]
      have h2 : (applyPair e p).timestamp = p.snd := by
        have hne : ¬ p.fst = "keyId".data := by
          rw [h]; decide
        simp [applyPair, h, hne]
      rw [List.filterMap_cons_some h1, List.getLastD_cons, h2]
    · have h1 : selTs p = none := by simp [selTs, h]
      have h2 : (applyPair e p).timestamp = e.timestamp := by
        simp only [applyPair]
        split_ifs <;> simp_all
      simp [List.filterMap_cons, h1, h2]

/-- The folded nonce is the last `nonce` assignment. -/
theorem foldl_applyPair_nonce :
    ∀ (l : List (List Char × List Char)) (e : AuthHeader),
      (l.foldl applyPair e).nonce = (l.filterMap selNonce).getLastD e.nonce := by
  intro l
  induction l with
  | nil => intro e; rfl
  | cons p tl ih =>
    intro e
    rw [List.foldl_cons, ih]
    by_cases h : p.fst = "nonce".data
    · have h1 : selNonce p = some p.snd := by simp [selNonce, h]
      have h2 : (applyPair e p).nonce = p.snd := by
        have hne1 : ¬ p.fst = "keyId".data := by rw [h]; decide
        have hne2 : ¬ p.fst = "ts".data := by rw [h]; decide
        simp [applyPair, h, hne1, hne2]
      rw [List.filterMap_cons_some h1, List.getLastD_cons, h2]
    · have h1 : selNonce p = none := by simp [selNonce, h]
      have h2 : (applyPair e p).nonce = e.nonce := by
        simp only [applyPair]
        split_ifs <;> simp_all
      simp [List.filterMap_cons, h1, h2]

/-- The folded signature is the last `sig` assignment. -/
theorem foldl_applyPair_sig :
    ∀ (l : List (List Char × List Char)) (e : AuthHeader),
      (l.foldl applyPair e).signature = (l.filterMap selSig).getLastD e.signature := by
  intro l
  induction l with
  | nil => intro e; rfl
  | cons p tl ih =>
    intro e
    rw [List.foldl_cons, ih]
    by_cases h : p.fst = "sig".data
    · have h1 : selSig p = some p.snd := by simp [selSig, h]
      have h2 : (applyPair e p).signature = p.snd := by
        have hne1 : ¬ p.fst = "keyId".data := by rw [h]; decide
        have hne2 : ¬ p.fst = "ts".data := by rw [h]; decide
        have hne3 : ¬ p.fst = "nonce".data := by rw [h]; decide
        simp [applyPair, h, hne1, hne2, hne3]
      rw [List.filterMap_cons_some h1, List.getLastD_cons, h2]
    · have h1 : selSig p = none := by simp [selSig, h]
      have h2 : (applyPair e p).signature = e.signature := by
        simp only [applyPair]
        split_ifs <;> simp_all
      simp [List.filterMap_cons, h1, h2]

/-- Any permutation of the four base pairs folds back to the header
they came from: the four keys are distinct, so each field is set
exactly once. -/
theorem foldl_applyPair_perm (l : List (List Char × List Char)) (a : AuthHeader)
    (hperm : l.Perm (basePairs a)) :
    l.foldl applyPair emptyAuthHeader = a := by
  have hkb : l.filterMap selKeyID = [a.keyID] := by
    have hbase : (basePairs a).filterMap selKeyID = [a.keyID] := by
      have e1 : selKeyID ("keyId".data, a.keyID) = some a.keyID := rfl
      have e2 : selKeyID ("ts".data, a.timestamp) = none := rfl
      have e3 : selKeyID ("nonce".data, a.nonce) = none := rfl
      have e4 : selKeyID ("sig".data, a.signature) = none := rfl
      simp [basePairs, List.filterMap_cons, e1, e2, e3, e4]
    exact List.perm_singleton.mp (hbase ▸ hperm.filterMap selKeyID)
  have htb : l.filterMap selTs = [a.timestamp] := by
    have hbase : (basePairs a).filterMap selTs = [a.timestamp] := by
      have e1 : selTs ("keyId".data, a.keyID) = none := rfl
      have e2 : selTs ("ts".data, a.timestamp) = some a.timestamp := rfl
      have e3 : selTs ("nonce".data, a.nonce) = none := rfl
      have e4 : selTs ("sig".data, a.signature) = none := rfl
      simp [basePairs, List.filterMap_cons, e1, e2, e3, e4]
    exact List.perm_singleton.mp (hbase ▸ hperm.filterMap selTs)
  have hnb : l.filterMap selNonce = [a.nonce] := by
    have hbase : (basePairs a).filterMap selNonce = [a.nonce] := by
      have e1 : selNonce ("keyId".data, a.keyID) = none := rfl
      have e2 : selNonce ("ts".data, a.timestamp) = none := rfl
      have e3 : selNonce ("nonce".data, a.nonce) = some a.nonce := rfl
      have e4 : selNonce ("sig".data, a.signature) = none := rfl
      simp [basePairs, List.filterMap_cons, e1, e2, e3, e4]
    exact List.perm_singleton.mp (hbase ▸ hperm.filterMap selNonce)
  have hsb : l.filterMap selSig = [a.signature] := by
    have hbase : (basePairs a).filterMap selSig = [a.signature] := by
      have e1 : selSig ("keyId".data, a.keyID) = none := rfl
      have e2 : selSig ("ts".data, a.timestamp) = none := rfl
      have e3 : selSig ("nonce".data, a.nonce) = none := rfl
      have e4 : selSig ("sig".data, a.signature) = some a.signature := rfl
      simp [basePairs, List.filterMap_cons, e1, e2, e3, e4]
    exact List.perm_singleton.mp (hbase ▸ hperm.filterMap selSig)
  have h1 : (l.foldl applyPair emptyAuthHeader).keyID = a.keyID := by
    rw [foldl_applyPair_keyID, hkb]; rfl
  have h2 : (l.foldl applyPair emptyAuthHeader).timestamp = a.timestamp := by
    rw [foldl_applyPair_ts, htb]; rfl
  have h3 : (l.foldl applyPair emptyAuthHeader).nonce = a.nonce := by
    rw [foldl_applyPair_nonce, hnb]; rfl
  have h4 : (l.foldl applyPair emptyAuthHeader).signature = a.signature := by
    rw [foldl_applyPair_sig, hsb]; rfl
  have hx : ∀ x : AuthHeader, x.keyID = a.keyID → x.timestamp = a.timestamp →
      x.nonce = a.nonce → x.signature = a.signature → x = a := by
    intro x e1 e2 e3 e4
    cases x
    cases a
    simp_all
  exact hx _ h1 h2 h3 h4

/-- The padded fold agrees with the abstract pair fold on good
pairs. -/
theorem foldl_setAuthField_render (w1 w2 w3 w4 : List Char)
    (hw1 : allSpace w1) (hw2 : allSpace w2) (hw3 : allSpace w3) (hw4 : allSpace w4) :
    ∀ (l : List (List Char × List Char)) (e : AuthHeader),
      (∀ p ∈ l, goodVal p.fst ∧ goodVal p.snd) →
      l.foldl (fun x p => setAuthField x (renderPair w1 w2 w3 w4 p)) e =
        l.foldl applyPair e := by
  intro l
  induction l with
  | nil => intro e _; rfl
  | cons p tl ih =>
    intro e h
    obtain ⟨h1, h2⟩ := h p (by simp)
    have hset : setAuthField e (renderPair w1 w2 w3 w4 p) = applyPair e p := by
      have hsr := setAuthField_renderPair e w1 w2 w3 w4 p.fst p.snd hw1 hw2 hw3 hw4 h1 h2
      simpa using hsr
    rw [List.foldl_cons, List.foldl_cons, hset]
    exact ih _ (fun q hq => h q (by simp [hq]))

/-- A padded rendering in any field order parses back to the header. -/
theorem parse_renderPairsPad (a : AuthHeader) (l : List (List Char × List Char))
    (w1 w2 w3 w4 : List Char)
    (hk : goodVal a.keyID) (ht : goodVal a.timestamp)
    (hn : goodVal a.nonce) (hs : goodVal a.signature)
    (hw1 : allSpace w1) (hw2 : allSpace w2) (hw3 : allSpace w3) (hw4 : allSpace w4)
    (hperm : l.Perm (basePairs a)) :
    parseAuthHeader (renderPairsPad w1 w2 w3 w4 l) = .ok a := by
  have hmem : ∀ p ∈ l, goodVal p.fst ∧ goodVal p.snd := by
    intro p hp
    have hp' : p ∈ basePairs a := hperm.mem_iff.mp hp
    simp only [basePairs, List.mem_cons, List.not_mem_nil, or_false] at hp'
    rcases hp' with rfl | rfl | rfl | rfl
    · exact ⟨(by decide : goodVal "keyId".data), hk⟩
    · exact ⟨(by decide : goodVal "ts".data), ht⟩
    · exact ⟨(by decide : goodVal "nonce".data), hn⟩
    · exact ⟨(by decide : goodVal "sig".data), hs⟩
  have hlne : l ≠ [] := by
    intro h0
    have hlen := hperm.length_eq
    rw [h0] at hlen
    simp [basePairs] at hlen
  have hshape : renderPairsPad w1 w2 w3 w4 l =
      (rcsTag ++ [' ']) ++ joinComma (l.map (renderPair w1 w2 w3 w4)) := by
    simp [renderPairsPad]
  have hpre : rcsTag.isPrefixOf (renderPairsPad w1 w2 w3 w4 l) = true := by
    rw [hshape, List.isPrefixOf_iff_prefix, List.append_assoc]
    exact List.prefix_append _ _
  have htp : trimPre (rcsTag ++ [' ']) (renderPairsPad w1 w2 w3 w4 l) =
      joinComma (l.map (renderPair w1 w2 w3 w4)) := by
    have hp2 : (rcsTag ++ [' ']).isPrefixOf
        ((rcsTag ++ [' ']) ++ joinComma (l.map (renderPair w1 w2 w3 w4))) = true := by
      rw [List.isPrefixOf_iff_prefix]
      exact List.prefix_append _ _
    rw [hshape]
    unfold trimPre
    rw [if_pos hp2, List.drop_left]
  have hsplit : splitOnComma (joinComma (l.map (renderPair w1 w2 w3 w4))) =
      l.map (renderPair w1 w2 w3 w4) := by
    apply splitOnComma_joinComma
    · intro h0
      exact hlne (by simpa using h0)
    · intro piece hpiece c hc
      obtain ⟨p, hpl, rfl⟩ := List.mem_map.mp hpiece
      obtain ⟨hkey, hval⟩ := hmem p hpl
      simp only [renderPair] at hc
      rcases List.mem_append.mp hc with hc1 | hc1
      · rcases List.mem_append.mp hc1 with hc2 | hc2
        · rcases List.mem_append.mp hc2 with hc3 | hc3
          · exact (goSpace_ne_sep c (hw1 c hc3)).1
          · exact (hkey.2.1 c hc3).1
        · exact (goSpace_ne_sep c (hw2 c hc2)).1
      · rcases List.mem_cons.mp hc1 with rfl | hc2
        · decide
        · rcases List.mem_append.mp hc2 with hc3 | hc3
          · rcases List.mem_append.mp hc3 with hc4 | hc4
            · exact (goSpace_ne_sep c (hw3 c hc4)).1
            · exact (hval.2.1 c hc4).1
          · exact (goSpace_ne_sep c (hw4 c hc3)).1
  have hfold : (l.map (renderPair w1 w2 w3 w4)).foldl setAuthField emptyAuthHeader
      = a := by
    rw [List.foldl_map]
    rw [foldl_setAuthField_render w1 w2 w3 w4 hw1 hw2 hw3 hw4 l emptyAuthHeader hmem]
    exact foldl_applyPair_perm l a hperm
  have hcond : ¬ (a.keyID = [] ∨ a.timestamp = [] ∨ a.nonce = [] ∨
      a.signature = []) := by
    push_neg
    exact ⟨hk.1, ht.1, hn.1, hs.1⟩
  unfold parseAuthHeader
  simp only [hpre, if_true]
  rw [htp, hsplit, hfold, if_neg hcond]

/-- `CreateAuthHeader`'s rendering is the unpadded rendering of the four
base pairs in canonical order. -/
theorem formatAuthHeader_eq_render (a : AuthHeader) :
    formatAuthHeader a = renderPairsPad [] [] [] [] (basePairs a) := by
  have h1 : " keyId=".data = [' ', 'k', 'e', 'y', 'I', 'd', '='] := rfl
  have h2 : ",ts=".data = [',', 't', 's', '='] := rfl
  have h3 : ",nonce=".data = [',', 'n', 'o', 'n', 'c', 'e', '='] := rfl
  have h4 : ",sig=".data = [',', 's', 'i', 'g', '='] := rfl
  have h5 : "keyId".data = ['k', 'e', 'y', 'I', 'd'] := rfl
  have h6 : "ts".data = ['t', 's'] := rfl
  have h7 : "nonce".data = ['n', 'o', 'n', 'c', 'e'] := rfl
  have h8 : "sig".data = ['s', 'i', 'g'] := rfl
  simp [formatAuthHeader, renderPairsPad, basePairs, renderPair, joinComma,
    h1, h2, h3, h4, h5, h6, h7, h8, List.append_assoc]

/-- C6: for a header whose four field values are non-empty, free of the
separators `,` and `=`, and free of leading and trailing whitespace,
`ParseAuthHeader (CreateAuthHeader rendering) = h`; the parser accepts
the four `key=value` fields in any order and tolerates whitespace
padding around `=` and `,`; any input not carrying the exact
(case-sensitive) `RCS-HMAC-SHA256` prefix is rejected with the
invalid-format error.  The whitespace-freedom hypotheses are necessary:
the claim's own well-formedness (separator-freedom alone) does not give
a roundtrip, see the counterexample. -/
theorem C6_parse_format_roundtrip (a : AuthHeader)
    (hk : goodVal a.keyID) (ht : goodVal a.timestamp)
    (hn : goodVal a.nonce) (hs : goodVal a.signature) :
    parseAuthHeader (formatAuthHeader a) = .ok a ∧
    (∀ (l : List (List Char × List Char)) (w1 w2 w3 w4 : List Char),
      l.Perm (basePairs a) → allSpace w1 → allSpace w2 → allSpace w3 →
      allSpace w4 →
      parseAuthHeader (renderPairsPad w1 w2 w3 w4 l) = .ok a) ∧
    (∀ s, rcsTag.isPrefixOf s = false →
      parseAuthHeader s = .error .badScheme) := by
  refine ⟨?_, ?_, ?_⟩
  · rw [formatAuthHeader_eq_render]
    exact parse_renderPairsPad a (basePairs a) [] [] [] [] hk ht hn hs
      (by intro c hc; simp at hc) (by intro c hc; simp at hc)
      (by intro c hc; simp at hc) (by intro c hc; simp at hc)
      (List.Perm.refl _)
  · intro l w1 w2 w3 w4 hperm hw1 hw2 hw3 hw4
    exact parse_renderPairsPad a l w1 w2 w3 w4 hk ht hn hs hw1 hw2 hw3 hw4 hperm
  · intro s hneg
    simp [parseAuthHeader, hneg]

/-- C6 counterexample: the header whose nonce is the two characters
`space n` satisfies the claim's well-formedness (all four fields
present and free of `,` and `=`), yet parsing its rendering trims the
space and returns a different header, so parse-format is not the
identity on the claim's domain. -/
theorem C6_counterexample :
    (let a : AuthHeader := ⟨"k".data, "1".data, [' ', 'n'], "s".data⟩
     (a.keyID ≠ [] ∧ a.timestamp ≠ [] ∧ a.nonce ≠ [] ∧ a.signature ≠ []) ∧
     (∀ c ∈ a.nonce, c ≠ ',' ∧ c ≠ '=') ∧
     parseAuthHeader (formatAuthHeader a) =
       .ok ⟨"k".data, "1".data, ['n'], "s".data⟩ ∧
     parseAuthHeader (formatAuthHeader a) ≠ .ok a) := by
  decide

/-- A concrete well-formed header for exercising the roundtrip. -/
def c6Auth : AuthHeader :=
  ⟨"key-1".data, "1640995200".data, "abc".data, "ff00".data⟩

/-- C6 witness: the roundtrip, the reordered-and-padded acceptance, and
the case-sensitive prefix rejection, all at concrete inputs. -/
theorem C6_parse_format_roundtrip_witness :
    parseAuthHeader (formatAuthHeader c6Auth) = .ok c6Auth ∧
    parseAuthHeader
      (renderPairsPad [' '] [' '] [' '] [' '] (basePairs c6Auth).reverse) =
      .ok c6Auth ∧
    parseAuthHeader ("rcs-hmac-sha256 keyId=key-1,ts=1,nonce=a,sig=b".data) =
      .error .badScheme := by
  have h := C6_parse_format_roundtrip c6Auth (by decide) (by decide)
    (by decide) (by decide)
  exact ⟨h.1,
    h.2.1 (basePairs c6Auth).reverse [' '] [' '] [' '] [' ']
      (List.reverse_perm _) (by decide) (by decide) (by decide) (by decide),
    h.2.2 _ (by decide)⟩

end RCS
